import Mathlib

/-!
Shallow embedding of the audience-intelligence pipeline
(`pipeline_utils.py` and `cosmetics.py`).

Python values flowing through the pipeline (MongoDB documents, scraped
records, standardized profiles) are modelled by the inductive type `Val`.
Operations that can raise a Python exception are modelled in the
`Except String` monad; the try/except wrappers of the source become total
functions.
-/

/-- A Python-style dynamic value: None, bool, int, str, list, dict.
Dict fields keep insertion order, as Python dicts do. -/
inductive Val where
  | vnull
  | vbool (b : Bool)
  | vint (n : Int)
  | vstr (s : String)
  | vlist (xs : List Val)
  | vdict (fs : List (String × Val))
deriving Repr

mutual

/-- Structural equality test on `Val` (Python `==` restricted to
same-shaped values). -/
def Val.beq : Val → Val → Bool
  | .vnull, .vnull => true
  | .vbool a, .vbool b => a == b
  | .vint a, .vint b => a == b
  | .vstr a, .vstr b => a == b
  | .vlist xs, .vlist ys => Val.beqList xs ys
  | .vdict fs, .vdict gs => Val.beqFields fs gs
  | _, _ => false

def Val.beqList : List Val → List Val → Bool
  | [], [] => true
  | x :: xs, y :: ys => Val.beq x y && Val.beqList xs ys
  | _, _ => false

def Val.beqFields : List (String × Val) → List (String × Val) → Bool
  | [], [] => true
  | (k, v) :: fs, (l, w) :: gs => k == l && Val.beq v w && Val.beqFields fs gs
  | _, _ => false

end

mutual

theorem Val.eq_of_beq : ∀ (a b : Val), Val.beq a b = true → a = b
  | .vnull, .vnull, _ => rfl
  | .vbool _, .vbool _, h => by
      simpa [Val.beq] using congrArg Val.vbool (by simpa [Val.beq] using h)
  | .vint _, .vint _, h => by
      exact congrArg Val.vint (by simpa [Val.beq] using h)
  | .vstr _, .vstr _, h => by
      exact congrArg Val.vstr (by simpa [Val.beq] using h)
  | .vlist xs, .vlist ys, h => by
      exact congrArg Val.vlist (Val.eqList_of_beqList xs ys (by simpa [Val.beq] using h))
  | .vdict fs, .vdict gs, h => by
      exact congrArg Val.vdict (Val.eqFields_of_beqFields fs gs (by simpa [Val.beq] using h))

theorem Val.eqList_of_beqList : ∀ (xs ys : List Val), Val.beqList xs ys = true → xs = ys
  | [], [], _ => rfl
  | x :: xs, y :: ys, h => by
      have h1 : Val.beq x y = true := by
        have := h; simp [Val.beqList] at this; exact this.1
      have h2 : Val.beqList xs ys = true := by
        have := h; simp [Val.beqList] at this; exact this.2
      rw [Val.eq_of_beq x y h1, Val.eqList_of_beqList xs ys h2]

theorem Val.eqFields_of_beqFields :
    ∀ (fs gs : List (String × Val)), Val.beqFields fs gs = true → fs = gs
  | [], [], _ => rfl
  | (k, v) :: fs, (l, w) :: gs, h => by
      have h0 : k = l := by
        have := h; simp [Val.beqFields] at this; exact this.1.1
      have h1 : Val.beq v w = true := by
        have := h; simp [Val.beqFields] at this; exact this.1.2
      have h2 : Val.beqFields fs gs = true := by
        have := h; simp [Val.beqFields] at this; exact this.2
      rw [h0, Val.eq_of_beq v w h1, Val.eqFields_of_beqFields fs gs h2]

end

mutual

theorem Val.beq_refl : ∀ (a : Val), Val.beq a a = true
  | .vnull => rfl
  | .vbool _ => by simp [Val.beq]
  | .vint _ => by simp [Val.beq]
  | .vstr _ => by simp [Val.beq]
  | .vlist xs => by simpa [Val.beq] using Val.beqList_refl xs
  | .vdict fs => by simpa [Val.beq] using Val.beqFields_refl fs

theorem Val.beqList_refl : ∀ (xs : List Val), Val.beqList xs xs = true
  | [] => rfl
  | x :: xs => by simp [Val.beqList, Val.beq_refl x, Val.beqList_refl xs]

theorem Val.beqFields_refl : ∀ (fs : List (String × Val)), Val.beqFields fs fs = true
  | [] => rfl
  | (k, v) :: fs => by simp [Val.beqFields, Val.beq_refl v, Val.beqFields_refl fs]

end

instance : DecidableEq Val := fun a b =>
  if h : Val.beq a b = true then isTrue (Val.eq_of_beq a b h)
  else isFalse (fun he => h (he ▸ Val.beq_refl a))

/-- Python truthiness: None, False, 0, empty string, empty list and
empty dict are falsy; everything else is truthy. -/
def truthy : Val → Bool
  | .vnull => false
  | .vbool b => b
  | .vint n => n != 0
  | .vstr s => s != ""
  | .vlist xs => !xs.isEmpty
  | .vdict fs => !fs.isEmpty

/-- Python `a or b`: returns `a` when `a` is truthy, else `b`. -/
def pyOr (a b : Val) : Val := if truthy a then a else b

theorem pyOr_self_right (a b : Val) : pyOr (pyOr a b) b = pyOr a b := by
  unfold pyOr
  by_cases h : truthy a = true
  · simp [h]
  · simp [h]

theorem pyOr_of_truthy (a b : Val) (h : truthy a = true) : pyOr a b = a := by
  simp [pyOr, h]

/-! ## Dict primitives -/

/-- Ordered association-list lookup: the value stored under `key`,
if any. -/
def lookupField : List (String × Val) → String → Option Val
  | [], _ => none
  | (k, v) :: rest, key => if k = key then some v else lookupField rest key

/-- Python `d[k] = v` on the field list: replace in place when the key
exists, else append at the end (insertion order preserved). -/
def setField : List (String × Val) → String → Val → List (String × Val)
  | [], k, v => [(k, v)]
  | (k0, v0) :: rest, k, v =>
      if k0 = k then (k, v) :: rest else (k0, v0) :: setField rest k v

/-- Total read of a dict field; `vnull` stands for Python `None`
(missing key, or a read on a non-dict that a caller has already
guarded). -/
def Val.getT : Val → String → Val
  | .vdict fs, k => (lookupField fs k).getD .vnull
  | _, _ => .vnull

/-- `d.get(k)` on a field list (default `None`, i.e. `vnull`). -/
def dGet (fs : List (String × Val)) (k : String) : Val :=
  (lookupField fs k).getD .vnull

/-- `d.get(k, default)` on a field list: the stored value when the key is
present (even when the stored value is `None`), else the default. -/
def dGetD (fs : List (String × Val)) (k : String) (d : Val) : Val :=
  (lookupField fs k).getD d

/-- Python `.get`/`[...]` access requires a dict; on anything else an
`AttributeError`/`TypeError` is raised. -/
def asFields : Val → Except String (List (String × Val))
  | .vdict fs => .ok fs
  | _ => .error "AttributeError: object has no attribute get"

/-- `True` exactly on dict values. -/
def isDictVal : Val → Bool
  | .vdict _ => true
  | _ => false

/-- `True` exactly on string values. -/
def isStrVal : Val → Bool
  | .vstr _ => true
  | _ => false

/-! ## Python string and number coercions -/

/-- A string method (`.strip()`, `.lower()`, …) applied to a non-string
raises. -/
def asStr : Val → Except String String
  | .vstr s => .ok s
  | _ => .error "TypeError: expected a str"

/-- Iterating / slicing a value as a list raises on non-lists. -/
def asList : Val → Except String (List Val)
  | .vlist xs => .ok xs
  | _ => .error "TypeError: expected a list"

/-- Python `x > bound` for an int bound: ints and bools compare,
everything else raises. -/
def valGt (v : Val) (bound : Int) : Except String Bool :=
  match v with
  | .vint n => .ok (decide (bound < n))
  | .vbool b => .ok (decide (bound < if b then (1 : Int) else 0))
  | _ => .error "TypeError: unsupported comparison"

/-- Python `int(x)` restricted to ints and bools (numeric records). -/
def valToInt : Val → Except String Int
  | .vint n => .ok n
  | .vbool b => .ok (if b then 1 else 0)
  | _ => .error "TypeError: int() argument"

/-- Python `int(x / 100)` for an int or bool `x`: true division followed
by truncation toward zero. -/
def valTDiv100 : Val → Except String Int
  | .vint n => .ok (Int.tdiv n 100)
  | .vbool b => .ok (Int.tdiv (if b then 1 else 0) 100)
  | _ => .error "TypeError: unsupported operand"

/-- Python whitespace strip on a character list: drop leading and
trailing whitespace. -/
def stripList (l : List Char) : List Char :=
  ((l.dropWhile Char.isWhitespace).reverse.dropWhile Char.isWhitespace).reverse

/-- Python `s.strip()`. -/
def pyStrip (s : String) : String := String.mk (stripList s.toList)

/-- Substring occurrence on character lists: `needle` occurs somewhere
in `hay`. -/
def listContains (needle : List Char) : List Char → Bool
  | [] => needle.isEmpty
  | c :: rest => needle.isPrefixOf (c :: rest) || listContains needle rest

/-- Python substring test `needle in hay`. -/
def strIn (needle hay : String) : Bool :=
  listContains needle.toList hay.toList

/-- Python `s.lower()` (ASCII case folding, as in the data handled by the
pipeline). -/
def pyLower (s : String) : String := String.mk (s.toList.map Char.toLower)

/-- Python `s[:n]` on a string, counting codepoints. -/
def strTake (s : String) (n : Nat) : String := String.mk (s.toList.take n)

/-- Python `len(s)` for strings, counting codepoints. -/
def strLen (s : String) : Nat := s.toList.length

/-- Python `s.startswith(p)`. -/
def strStartsWith (s p : String) : Bool := p.toList.isPrefixOf s.toList

/-- Occurrences of a single character in a string
(Python `s.count(c)` for a one-character needle). -/
def countChar (s : String) (c : Char) : Nat := s.toList.count c

/-- Python `sep.join(parts)` for a list of strings. -/
def joinSep (sep : String) : List String → String
  | [] => ""
  | [x] => x
  | x :: y :: rest => x ++ sep ++ joinSep sep (y :: rest)

/-- Split a character list at a separator character
(Python `s.split(c)` for a one-character separator). -/
def splitListOn (sep : Char) : List Char → List (List Char)
  | [] => [[]]
  | c :: rest =>
      let groups := splitListOn sep rest
      if c = sep then [] :: groups
      else
        match groups with
        | [] => [[c]]
        | g :: gs => (c :: g) :: gs

/-- Python `s.split(c)` for a one-character separator. -/
def strSplit (s : String) (sep : Char) : List String :=
  (splitListOn sep s.toList).map String.mk

/-- Python slicing `x[:n]`: defined for lists and strings. -/
def sliceTo (v : Val) (n : Nat) : Except String Val :=
  match v with
  | .vlist xs => .ok (.vlist (xs.take n))
  | .vstr s => .ok (.vstr (strTake s n))
  | _ => .error "TypeError: object is not subscriptable"

/-- Python `len(x)`: defined for strings, lists and dicts. -/
def pyLen : Val → Except String Int
  | .vstr s => .ok (strLen s)
  | .vlist xs => .ok xs.length
  | .vdict fs => .ok fs.length
  | _ => .error "TypeError: object has no len"

example : truthy (.vstr "") = false := by decide
example : pyOr (.vstr "") (.vint 3) = .vint 3 := by decide
example : strIn "bea" "beauty tips" = true := by decide
example : strIn "xyz" "beauty" = false := by decide
example : strIn "" "anything" = true := by decide
example : pyStrip "  hi there \n" = "hi there" := by decide
example : pyLower "Beauty Expert" = "beauty expert" := by decide
example : strSplit "a\nb\n" '\n' = ["a", "b", ""] := by decide
example : joinSep " | " ["x", "y"] = "x | y" := by decide
example : strTake "hello" 3 = "hel" := by decide

/-! ## Python `str()` rendering (used when the scorer stringifies
experience entries, and by f-string interpolation) -/

/-- A single-quote character, written without an apostrophe literal. -/
def quoteCh : String := String.singleton (Char.ofNat 39)

deriving instance DecidableEq for Except

mutual

/-- Python `repr(v)` for the value shapes in `Val` (string escaping is
not modelled; the records the pipeline handles do not contain quotes). -/
def pyRepr : Val → String
  | .vnull => "None"
  | .vbool b => if b then "True" else "False"
  | .vint n => toString n
  | .vstr s => quoteCh ++ s ++ quoteCh
  | .vlist xs => "[" ++ pyReprElems xs ++ "]"
  | .vdict fs => "\x7b" ++ pyReprFields fs ++ "\x7d"

def pyReprElems : List Val → String
  | [] => ""
  | [x] => pyRepr x
  | x :: y :: rest => pyRepr x ++ ", " ++ pyReprElems (y :: rest)

def pyReprFields : List (String × Val) → String
  | [] => ""
  | [(k, v)] => quoteCh ++ k ++ quoteCh ++ ": " ++ pyRepr v
  | (k, v) :: g :: rest => quoteCh ++ k ++ quoteCh ++ ": " ++ pyRepr v ++ ", " ++ pyReprFields (g :: rest)

end

/-- Python `str(v)`: identity on strings, `repr` rendering otherwise. -/
def pyStr : Val → String
  | .vstr s => s
  | v => pyRepr v

example : pyStr (.vstr "Beauty Co") = "Beauty Co" := by decide
example : pyStr (.vint 7) = "7" := by decide
example : pyStr (.vdict [("title", .vstr "CEO")]) = "\x7b" ++ quoteCh ++ "title" ++ quoteCh ++ ": " ++ quoteCh ++ "CEO" ++ quoteCh ++ "\x7d" := by decide

/-! ## `FetchFromMongoTool._extract_username_from_url`

The source applies `re.search` with the patterns
`facebook\.com/([^/?]+)`, `instagram\.com/([^/?]+)`,
`linkedin\.com/in/([^/?]+)` in that order.  Each pattern is a literal
followed by a nonempty capture of characters other than `/` and `?`;
`re.search` takes the leftmost position where the whole pattern
matches. -/

/-- Leftmost match of `lit` followed by a nonempty run of characters
other than `/` and `?`; returns that run (the capture group). -/
def captureAfter (lit : List Char) : List Char → Option (List Char)
  | [] => none
  | c :: rest =>
      if lit.isPrefixOf (c :: rest) then
        let cap := ((c :: rest).drop lit.length).takeWhile
          (fun ch => ch != '/' && ch != '?')
        if cap.isEmpty then captureAfter lit rest else some cap
      else captureAfter lit rest

/-- The body of `_extract_username_from_url` for a string url already
known to be truthy: try the three patterns, else `"social_user"`. -/
def extractUsernameCore (s : String) : String :=
  match captureAfter "facebook.com/".toList s.toList with
  | some cap => String.mk cap
  | none =>
    match captureAfter "instagram.com/".toList s.toList with
    | some cap => String.mk cap
    | none =>
      match captureAfter "linkedin.com/in/".toList s.toList with
      | some cap => String.mk cap
      | none => "social_user"

/-- `_extract_username_from_url(url)`: falsy urls give
`"unknown_user"`; `re.search` on a non-string raises. -/
def extractUsernameFromUrl (url : Val) : Except String String :=
  if truthy url then (asStr url).map extractUsernameCore
  else .ok "unknown_user"

example : extractUsernameFromUrl (.vstr "https://www.instagram.com/coolbrand/reel1") = .ok "coolbrand" := by decide
example : extractUsernameFromUrl (.vstr "https://example.com/x") = .ok "social_user" := by decide
example : extractUsernameFromUrl (.vstr "") = .ok "unknown_user" := by decide

/-! ## `FetchFromMongoTool._validate_platform_data`

One branch per platform; the LinkedIn branch first builds a cleaned
profile and, when the cleaned profile passes the check, appends the
cleaned version instead of the original record. -/

/-- Facebook validity: categories, info, about-me text, a positive like
count or a positive follower count.  The five conditions of the source
are evaluated left to right with Python short-circuiting, so the
comparisons `likes > 0` / `followers > 0` only run (and can only raise)
when the earlier conditions are falsy. -/
def validateFacebookP (p : Val) : Except String Bool := do
  let fs ← asFields p
  let categories := dGetD fs "categories" (.vlist [])
  let info := dGetD fs "info" (.vlist [])
  let likes := pyOr (dGet fs "likes") (.vint 0)
  let followers := pyOr (dGet fs "followers") (.vint 0)
  let aboutFs ← asFields (pyOr (dGet fs "about_me") (.vdict []))
  let aboutMe := dGetD aboutFs "text" (.vstr "")
  if truthy categories then return true
  if truthy info then return true
  if truthy aboutMe then return true
  if (← valGt likes 0) then return true
  valGt followers 0

/-- Instagram validity: non-empty caption, hashtags, or an owner id. -/
def validateInstagramP (p : Val) : Except String Bool := do
  let fs ← asFields p
  let c0 := pyOr (dGet fs "caption") (.vstr "")
  let captionV ← if truthy c0 then do
      let s ← asStr c0
      pure (Val.vstr (pyStrip s))
    else pure (Val.vstr "")
  let hashtags := dGetD fs "hashtags" (.vlist [])
  let ownerId := dGet fs "ownerId"
  pure (truthy captionV || truthy hashtags || truthy ownerId)

/-- Generic validity: username, bio or caption present. -/
def validateGenericP (p : Val) : Except String Bool := do
  let fs ← asFields p
  pure (truthy (dGet fs "username") || truthy (dGet fs "bio") ||
    truthy (dGet fs "caption"))

/-- The cleaned LinkedIn profile built by the LinkedIn branch. -/
structure LinkedInClean where
  firstName : String
  lastName : String
  fullName : String
  headline : String
  summary : String
  about : String
  experience : Val
  publicIdentifier : Val
  linkedinUrl : Val
  photo : Val
  location : Val
deriving Repr, DecidableEq

/-- `(profile.get(k) or "").strip()`. -/
def cleanStrField (fs : List (String × Val)) (k : String) : Except String String := do
  let s ← asStr (pyOr (dGet fs k) (.vstr ""))
  pure (pyStrip s)

/-- Build the cleaned LinkedIn profile (`profile_cleaned` in the
source); raises when a field that the source strips is a truthy
non-string. -/
def cleanLinkedIn (p : Val) : Except String LinkedInClean := do
  let fs ← asFields p
  let first ← cleanStrField fs "firstName"
  let last ← cleanStrField fs "lastName"
  let full ← asStr (pyOr (dGet fs "fullName") (pyOr (dGet fs "name") (.vstr "")))
  let headline ← cleanStrField fs "headline"
  let summary ← cleanStrField fs "summary"
  let about ← cleanStrField fs "about"
  pure
    { firstName := first
      lastName := last
      fullName := pyStrip full
      headline := headline
      summary := summary
      about := about
      experience := pyOr (dGet fs "experience") (.vlist [])
      publicIdentifier := dGet fs "publicIdentifier"
      linkedinUrl := dGet fs "linkedinUrl"
      photo := dGet fs "photo"
      location := pyOr (dGet fs "location") (.vdict []) }

/-- The dict appended to `valid_profiles` for a valid LinkedIn record
(the cleaned version, key order as in the source). -/
def LinkedInClean.toDict (c : LinkedInClean) : Val :=
  .vdict [("firstName", .vstr c.firstName), ("lastName", .vstr c.lastName),
    ("fullName", .vstr c.fullName), ("headline", .vstr c.headline),
    ("summary", .vstr c.summary), ("about", .vstr c.about),
    ("experience", c.experience), ("publicIdentifier", c.publicIdentifier),
    ("linkedinUrl", c.linkedinUrl), ("photo", c.photo),
    ("location", c.location)]

/-- The LinkedIn validation predicate on the cleaned profile: a
resolved, non-placeholder name together with at least one of headline,
summary, about or experience. -/
def linkedinCheck (c : LinkedInClean) : Bool :=
  let name := if c.fullName != "" then c.fullName
              else pyStrip (c.firstName ++ " " ++ c.lastName)
  name != "" && pyLower name != "linkedin user" &&
    (c.headline != "" || c.summary != "" || c.about != "" || truthy c.experience)

/-- One iteration of the validation loop: `some` of the profile kept in
`valid_profiles` (the cleaned version for LinkedIn), `none` when the
record is rejected. -/
def validateOne (platform : String) (p : Val) : Except String (Option Val) :=
  if platform = "facebook" then do
    let b ← validateFacebookP p
    pure (if b then some p else none)
  else if platform = "instagram" then do
    let b ← validateInstagramP p
    pure (if b then some p else none)
  else if platform = "linkedin" then do
    let c ← cleanLinkedIn p
    pure (if linkedinCheck c then some c.toDict else none)
  else do
    let b ← validateGenericP p
    pure (if b then some p else none)

/-- `_validate_platform_data`: keep the valid profiles in input order. -/
def validateProfiles (profiles : List Val) (platform : String) : Except String (List Val) :=
  match profiles with
  | [] => .ok []
  | p :: rest => do
    let o ← validateOne platform p
    let tail ← validateProfiles rest platform
    match o with
    | some q => pure (q :: tail)
    | none => pure tail

example : validateProfiles [.vdict [("caption", .vstr "hi")], .vdict [("foo", .vint 1)]] "instagram" = .ok [.vdict [("caption", .vstr "hi")]] := by decide
example : validateProfiles [.vdict [("fullName", .vstr "LinkedIn User"), ("headline", .vstr "")]] "linkedin" = .ok [] := by decide

/-! ## `FetchFromMongoTool._score_profiles_by_relevance` -/

/-- `[x.lower() for x in v]` for a list value of strings. -/
def lowerStrList : Val → Except String (List String)
  | .vlist xs => go xs
  | _ => .error "TypeError: expected a list"
where
  go : List Val → Except String (List String)
    | [] => .ok []
    | v :: rest => do
      let s ← asStr v
      let tail ← go rest
      pure (pyLower s :: tail)

/-- `sep.join(v)` for a list value of strings. -/
def joinVal (sep : String) : Val → Except String String
  | .vlist xs => (go xs).map (joinSep sep)
  | _ => .error "TypeError: can only join an iterable"
where
  go : List Val → Except String (List String)
    | [] => .ok []
    | v :: rest => do
      let s ← asStr v
      let tail ← go rest
      pure (s :: tail)

/-- Facebook scoring body: per lowercased term, +4 on a category match,
+3 on the joined info text, +2 on the title, +3 on the about text; then
a magnitude bonus of `int(likes/100) + int(followers/100)` and, when a
rating is present, `int(ratingOverall)`. -/
def scoreFacebook (p : Val) (termsLower : List String) : Except String Int := do
  let fs ← asFields p
  let categories ← lowerStrList (dGetD fs "categories" (.vlist []))
  let infoText ← (joinVal " " (dGetD fs "info" (.vlist []))).map pyLower
  let title ← (asStr (dGetD fs "title" (.vstr ""))).map pyLower
  let aboutFs ← asFields (dGetD fs "about_me" (.vdict []))
  let aboutMe ← (asStr (dGetD aboutFs "text" (.vstr ""))).map pyLower
  let s1 : Int := termsLower.foldl (fun acc t =>
    let acc := if categories.any (fun c => strIn t c) then acc + 4 else acc
    let acc := if strIn t infoText then acc + 3 else acc
    let acc := if strIn t title then acc + 2 else acc
    if strIn t aboutMe then acc + 3 else acc) 0
  let likesDiv ← valTDiv100 (dGetD fs "likes" (.vint 0))
  let folDiv ← valTDiv100 (dGetD fs "followers" (.vint 0))
  let s2 := s1 + likesDiv + folDiv
  if truthy (dGet fs "ratingOverall") then do
    let r ← valToInt (dGet fs "ratingOverall")
    pure (s2 + r)
  else pure s2

/-- Instagram scoring body: +3 per (hashtag, term) pair matching as a
substring in either direction, +2 per term in the caption, +1 when
likes exceed 10 and +1 when comments exceed 2. -/
def scoreInstagram (p : Val) (termsLower : List String) : Except String Int := do
  let fs ← asFields p
  let caption ← (asStr (dGetD fs "caption" (.vstr ""))).map pyLower
  let hashtags ← lowerStrList (dGetD fs "hashtags" (.vlist []))
  let s1 : Int := hashtags.foldl (fun acc tag =>
    termsLower.foldl (fun a t =>
      if strIn t tag || strIn tag t then a + 3 else a) acc) 0
  let s2 : Int := termsLower.foldl (fun a t =>
    if strIn t caption then a + 2 else a) s1
  let likesGt ← valGt (dGetD fs "likesCount" (.vint 0)) 10
  let s3 := if likesGt then s2 + 1 else s2
  let commentsGt ← valGt (dGetD fs "commentsCount" (.vint 0)) 2
  pure (if commentsGt then s3 + 1 else s3)

/-- LinkedIn scoring body: per lowercased term, +4 on the headline, +3
on the summary, +2 on the industry field; +2 per (experience entry,
term) pair where the term occurs in the stringified entry, over the
first three entries; +1 when connections exceed 500. -/
def scoreLinkedIn (p : Val) (termsLower : List String) : Except String Int := do
  let fs ← asFields p
  let headline ← (asStr (dGetD fs "headline" (.vstr ""))).map pyLower
  let summary ← (asStr (dGetD fs "summary" (.vstr ""))).map pyLower
  let industry ← (asStr (dGetD fs "industry" (.vstr ""))).map pyLower
  let exps ← asList (dGetD fs "experience" (.vlist []))
  let s1 : Int := termsLower.foldl (fun acc t =>
    let acc := if strIn t headline then acc + 4 else acc
    let acc := if strIn t summary then acc + 3 else acc
    if strIn t industry then acc + 2 else acc) 0
  let s2 : Int := (exps.take 3).foldl (fun acc e =>
    let expText := pyLower (pyStr e)
    termsLower.foldl (fun a t => if strIn t expText then a + 2 else a) acc) s1
  let connGt ← valGt (dGetD fs "connectionsCount" (.vint 0)) 500
  pure (if connGt then s2 + 1 else s2)

/-- Platform dispatch of the scoring body; platforms without a branch
keep `score = 0`. -/
def scoreProfile (platform : String) (p : Val) (termsLower : List String) : Except String Int :=
  if platform = "facebook" then scoreFacebook p termsLower
  else if platform = "instagram" then scoreInstagram p termsLower
  else if platform = "linkedin" then scoreLinkedIn p termsLower
  else pure 0

/-- `{**profile, "relevance_score": score}` — requires a mapping. -/
def annotate (p : Val) (score : Int) : Except String Val :=
  match p with
  | .vdict fs => .ok (.vdict (setField fs "relevance_score" (.vint score)))
  | _ => .error "TypeError: argument must be a mapping"

/-- The loop that builds `scored_profiles` in input order. -/
def annotateProfiles (platform : String) (profiles : List Val) (termsLower : List String) : Except String (List Val) :=
  match profiles with
  | [] => .ok []
  | p :: rest => do
    let s ← scoreProfile platform p termsLower
    let ap ← annotate p s
    let tail ← annotateProfiles platform rest termsLower
    pure (ap :: tail)

/-- The sort key `x.get("relevance_score", 0)`; after annotation this is
always the freshly stored integer score. -/
def scoreKey (v : Val) : Int :=
  match v with
  | .vdict fs =>
    match lookupField fs "relevance_score" with
    | some (.vint n) => n
    | _ => 0
  | _ => 0

/-- Stable insertion of one element into a list sorted by descending
`scoreKey`: the element goes before the first entry whose key does not
exceed its own, so it precedes equal keys that came later in the
original order. -/
def insDesc (x : Val) : List Val → List Val
  | [] => [x]
  | y :: ys => if scoreKey y ≤ scoreKey x then x :: y :: ys else y :: insDesc x ys

/-- `list.sort(key=..., reverse=True)`: a stable sort by descending
`scoreKey` (Python sorts are stable; `reverse=True` reverses the
comparison, not the order of ties). -/
def sortScoreDesc (l : List Val) : List Val := l.foldr insDesc []

/-- `_score_profiles_by_relevance`: an empty (or `None`) term list
returns the input unchanged; otherwise annotate every profile with its
score and sort by descending score, stably. -/
def scoreProfilesByRelevance (profiles : List Val) (searchTerms : List String) (platform : String) : Except String (List Val) :=
  if searchTerms.isEmpty then .ok profiles
  else do
    let ann ← annotateProfiles platform profiles (searchTerms.map pyLower)
    pure (sortScoreDesc ann)

example : scoreProfilesByRelevance
    [.vdict [("hashtags", .vlist [.vstr "beauty", .vstr "makeup"]), ("likesCount", .vint 15), ("commentsCount", .vint 3)],
     .vdict [("hashtags", .vlist [.vstr "travel"]), ("likesCount", .vint 0), ("commentsCount", .vint 0)]]
    ["beauty"] "instagram" = .ok
    [.vdict [("hashtags", .vlist [.vstr "beauty", .vstr "makeup"]), ("likesCount", .vint 15), ("commentsCount", .vint 3), ("relevance_score", .vint 5)],
     .vdict [("hashtags", .vlist [.vstr "travel"]), ("likesCount", .vint 0), ("commentsCount", .vint 0), ("relevance_score", .vint 0)]] := by decide

/-! ## Standardizers (`_standardize_*_profile`)

Each source standardizer wraps its body in try/except and returns
`None` on any exception; the cores below are the bodies, and the
`Option`-valued wrappers are the functions the pipeline calls. -/

/-- `_extract_bio_from_caption` line filter: skip lines that start with
a hash or contain more than two hashes, skip blanks, keep at most two
lines. -/
def collectBioLines : List String → List String → List String
  | [], acc => acc.reverse
  | l :: rest, acc =>
    let line := pyStrip l
    if strStartsWith line "#" || countChar line '#' > 2 then
      collectBioLines rest acc
    else if line = "" then collectBioLines rest acc
    else
      let acc2 := line :: acc
      if acc2.length ≥ 2 then acc2.reverse else collectBioLines rest acc2

/-- `_extract_bio_from_caption`. -/
def extractBioFromCaption (caption : Val) : Except String String := do
  if truthy caption = false then return "Instagram content creator"
  let s ← asStr caption
  let bioLines := collectBioLines (strSplit s '\n') []
  let bio := joinSep " " bioLines
  let bio := if strLen bio > 100 then strTake bio 97 ++ "..." else bio
  return if bio = "" then "Creative Instagram content creator" else bio

/-- Python `x + y * 5` for the engagement metrics: ints and bools only. -/
def asNum : Val → Except String Int
  | .vint n => .ok n
  | .vbool b => .ok (if b then 1 else 0)
  | _ => .error "TypeError: unsupported operand"

/-- `_calculate_engagement_score`, expressed in hundredths: the source
computes `round((likes + comments*5)/100, 2)`, which is exactly the
integer `likes + comments*5` scaled by one hundred. -/
def calculateEngagementScore (p : Val) : Except String Int := do
  let fs ← asFields p
  let likes ← asNum (dGetD fs "likesCount" (.vint 0))
  let comments ← asNum (dGetD fs "commentsCount" (.vint 0))
  pure (likes + comments * 5)

/-- `_standardize_instagram_profile` body. -/
def standardizeInstagramCore (p : Val) : Except String Val := do
  let fs ← asFields p
  let urlV := dGetD fs "url" (.vstr "")
  let username0 ← extractUsernameFromUrl urlV
  let username := if username0 = "instagram_user" then
      "user_" ++ pyStr (dGetD fs "ownerId" (.vstr "unknown"))
    else username0
  let captionV := dGetD fs "caption" (.vstr "")
  let bioContent ← extractBioFromCaption captionV
  let hasValid := truthy captionV || truthy (dGet fs "hashtags") ||
    truthy (dGet fs "ownerId")
  let engagement ← calculateEngagementScore p
  let capStr ← asStr captionV
  let recentCaption := if strLen capStr > 150 then strTake capStr 150 ++ "..." else capStr
  let hashtags10 ← sliceTo (dGetD fs "hashtags" (.vlist [])) 10
  pure (.vdict
    [("username", .vstr username),
     ("bio", .vstr bioContent),
     ("hashtags", hashtags10),
     ("platform", .vstr "instagram"),
     ("has_valid_content", .vbool hasValid),
     ("recent_posts", .vlist [.vdict
       [("caption", .vstr recentCaption),
        ("likes", dGetD fs "likesCount" (.vint 0)),
        ("comments", dGetD fs "commentsCount" (.vint 0)),
        ("url", dGetD fs "url" (.vstr ""))]]),
     ("profile_url", .vstr ("https://www.instagram.com/" ++ username ++ "/")),
     ("post_engagement", .vdict
       [("likes", dGetD fs "likesCount" (.vint 0)),
        ("comments", dGetD fs "commentsCount" (.vint 0)),
        ("engagement_score", .vint engagement)]),
     ("content_type", dGetD fs "type" (.vstr "Unknown")),
     ("post_date", dGetD fs "timestamp" (.vstr "")),
     ("relevance_score", dGetD fs "relevance_score" (.vint 0)),
     ("owner_id", dGetD fs "ownerId" (.vstr ""))])

/-- `_standardize_instagram_profile` with its try/except wrapper. -/
def standardizeInstagramProfile (p : Val) : Option Val :=
  (standardizeInstagramCore p).toOption

/-- `_standardize_linkedin_profile` body. -/
def standardizeLinkedInCore (p : Val) : Except String Val := do
  let fs ← asFields p
  let first ← (asStr (dGetD fs "firstName" (.vstr ""))).map pyStrip
  let last ← (asStr (dGetD fs "lastName" (.vstr ""))).map pyStrip
  let nameV := pyOr (dGet fs "fullName") (pyOr (dGet fs "name")
    (pyOr (.vstr (pyStrip (first ++ " " ++ last))) (.vstr "LinkedIn User")))
  let headlineV := pyOr (dGet fs "headline") (pyOr (dGet fs "summary")
    (pyOr (dGet fs "about") (.vstr "Professional LinkedIn user")))
  let hasValid := truthy nameV && nameV ≠ Val.vstr "LinkedIn User" &&
    (truthy headlineV || truthy (dGet fs "experience"))
  let hlLen ← pyLen headlineV
  let bioV ← if hlLen > 200 then do
      let s ← asStr headlineV
      pure (Val.vstr (strTake s 200 ++ "..."))
    else pure headlineV
  let recentPosts ← sliceTo (dGetD fs "posts" (.vlist [])) 3
  let experience3 ← sliceTo (dGetD fs "experience" (.vlist [])) 3
  let skills5 ← sliceTo (dGetD fs "skills" (.vlist [])) 5
  let education2 ← sliceTo (dGetD fs "education" (.vlist [])) 2
  pure (.vdict
    [("username", nameV),
     ("bio", bioV),
     ("platform", .vstr "linkedin"),
     ("has_valid_content", .vbool hasValid),
     ("recent_posts", recentPosts),
     ("profile_url", pyOr (dGet fs "profileUrl")
        (pyOr (dGet fs "linkedinUrl") (dGetD fs "url" (.vstr "")))),
     ("experience", experience3),
     ("location", pyOr (dGet fs "location") (pyOr (dGet fs "locationName") (.vstr ""))),
     ("connections", dGetD fs "connectionsCount" (.vint 0)),
     ("industry", dGetD fs "industry" (.vstr "")),
     ("company", dGetD fs "company" (.vstr "")),
     ("skills", skills5),
     ("education", education2),
     ("relevance_score", dGetD fs "relevance_score" (.vint 0))])

/-- `_standardize_linkedin_profile` with its try/except wrapper. -/
def standardizeLinkedInProfile (p : Val) : Option Val :=
  (standardizeLinkedInCore p).toOption

/-- `_standardize_facebook_profile` body. -/
def standardizeFacebookCore (p : Val) : Except String Val := do
  let fs ← asFields p
  let pageNameV := dGetD fs "pageName" (.vstr "")
  let categoriesV := dGetD fs "categories" (.vlist [])
  let info ← joinVal " " (dGetD fs "info" (.vlist []))
  let aboutFs ← asFields (dGetD fs "about_me" (.vdict []))
  let aboutMeV := dGetD aboutFs "text" (.vstr "")
  let likesV := dGetD fs "likes" (.vint 0)
  let followersV := dGetD fs "followers" (.vint 0)
  let usernameV ← if truthy pageNameV then pure pageNameV
    else (extractUsernameFromUrl (dGetD fs "pageUrl" (.vstr ""))).map Val.vstr
  let catPart ← if truthy categoriesV then do
      let j ← joinVal ", " categoriesV
      pure [j]
    else pure ([] : List String)
  let aboutPart ← if truthy aboutMeV then do
      let s ← asStr aboutMeV
      pure [strTake s 120]
    else if info ≠ "" then pure [strTake info 120]
    else pure ([] : List String)
  let bioParts := catPart ++ aboutPart
  let bio := if bioParts.isEmpty then "Facebook business/page"
             else joinSep " | " bioParts
  let hasValid := truthy categoriesV || info ≠ "" || truthy aboutMeV ||
    truthy likesV || truthy followersV
  pure (.vdict
    [("username", usernameV),
     ("bio", .vstr bio),
     ("platform", .vstr "facebook"),
     ("has_valid_content", .vbool hasValid),
     ("profile_url", dGetD fs "pageUrl" (.vstr "")),
     ("contact", .vdict
       [("phone", dGet fs "phone"), ("email", dGet fs "email"),
        ("website", dGet fs "website")]),
     ("metrics", .vdict
       [("likes", likesV), ("followers", followersV),
        ("rating", dGet fs "rating"),
        ("ratingOverall", dGet fs "ratingOverall"),
        ("ratingCount", dGet fs "ratingCount")]),
     ("page_metadata", .vdict
       [("title", dGet fs "title"), ("address", dGet fs "address"),
        ("creation_date", dGet fs "creation_date"),
        ("ad_status", dGet fs "ad_status")]),
     ("relevance_score", dGetD fs "relevance_score" (.vint 0)),
     ("data_quality", .vstr (if hasValid then "valid" else "empty")),
     ("original_data", p)])

/-- `_standardize_facebook_profile` with its try/except wrapper. -/
def standardizeFacebookProfile (p : Val) : Option Val :=
  (standardizeFacebookCore p).toOption

/-- `_standardize_generic_profile` body. -/
def standardizeGenericCore (p : Val) : Except String Val := do
  let fs ← asFields p
  let usernameV := pyOr (dGetD fs "username" (.vstr ""))
    (pyOr (dGetD fs "name" (.vstr "")) (dGetD fs "ownerUsername" (.vstr "Unknown User")))
  let bioV ← do
    let b := dGetD fs "bio" (.vstr "")
    if truthy b then pure b else
    let d := dGetD fs "description" (.vstr "")
    if truthy d then pure d else
    sliceTo (dGetD fs "caption" (.vstr "")) 200
  let postsV ← do
    let a := dGetD fs "posts" (.vlist [])
    if truthy a then pure a else
    sliceTo (dGetD fs "latestComments" (.vlist [])) 3
  pure (.vdict
    [("username", usernameV),
     ("bio", bioV),
     ("platform", dGetD fs "platform" (.vstr "unknown")),
     ("has_valid_content", .vbool true),
     ("hashtags", dGetD fs "hashtags" (.vlist [])),
     ("recent_posts", postsV),
     ("profile_url", pyOr (dGetD fs "url" (.vstr ""))
       (pyOr (dGetD fs "profileUrl" (.vstr "")) (dGetD fs "displayUrl" (.vstr "")))),
     ("location", pyOr (dGetD fs "location" (.vstr "")) (dGetD fs "locationName" (.vstr ""))),
     ("relevance_score", dGetD fs "relevance_score" (.vint 0))])

/-- `_standardize_generic_profile` with its try/except wrapper. -/
def standardizeGenericProfile (p : Val) : Option Val :=
  (standardizeGenericCore p).toOption

/-! ## `FetchFromMongoTool._run`

The store query itself is external: the list `allResults` stands for
`list(audience_collection.find(query, ...))`.  `platform=None` reaches
the f-string `platform.upper()` before the empty check and raises; the
top-level try/except turns any raised exception into an error dict with
the platform tag (`platform or "unknown"`). -/

/-- Per-platform standardizer dispatch (`platform` compared verbatim,
as in the source). -/
def standardizeFor (platform : String) (p : Val) : Option Val :=
  if platform = "instagram" then standardizeInstagramProfile p
  else if platform = "linkedin" then standardizeLinkedInProfile p
  else if platform = "facebook" then standardizeFacebookProfile p
  else standardizeGenericProfile p

/-- The loop that builds `processed_profiles`: keep a standardized
profile only when it is truthy and its `has_valid_content` flag is
truthy. -/
def processProfiles (tops : List Val) (platform : String) : List Val :=
  tops.filterMap (fun p =>
    match standardizeFor platform p with
    | some q => if truthy q && truthy (q.getT "has_valid_content") then some q else none
    | none => none)

/-- The scoring step of `_run`: `search_terms` falsy skips scoring. -/
def scoreStage (validResults : List Val) (searchTerms : List String) (platform : String) : Except String (List Val) :=
  if searchTerms.isEmpty then .ok validResults
  else scoreProfilesByRelevance validResults searchTerms platform

/-- The body of `_run` (everything inside the try block). -/
def runCore (platform : Option String) (allResults : List Val) (searchTerms : List String) (limit : Nat) : Except String Val := do
  let pf ← match platform with
    | some p => Except.ok p
    | none => Except.error "AttributeError: NoneType object has no attribute upper"
  if allResults.isEmpty then
    return .vdict [("error", .vstr ("No " ++ pf ++ " data found")),
      ("platform", .vstr pf)]
  let validResults ← validateProfiles allResults pf
  if validResults.isEmpty then
    return .vdict [("error", .vstr ("No valid " ++ pf ++ " content found")),
      ("platform", .vstr pf), ("raw_data", .vlist (allResults.take 1))]
  let scoredProfiles ← scoreStage validResults searchTerms pf
  let topProfiles := scoredProfiles.take limit
  let processed := processProfiles topProfiles pf
  match processed with
  | [] =>
    return .vdict [("error", .vstr ("No valid " ++ pf ++ " profiles after processing")),
      ("platform", .vstr pf), ("raw_data_sample", .vlist (allResults.take 1))]
  | q :: _ => return q

/-- `_run` with its top-level try/except: a raised exception becomes
`{"error": str(e), "platform": platform or "unknown"}`. -/
def runTool (platform : Option String) (allResults : List Val) (searchTerms : List String) (limit : Nat) : Val :=
  match runCore platform allResults searchTerms limit with
  | .ok v => v
  | .error e =>
    .vdict [("error", .vstr e),
      ("platform", .vstr (match platform with
        | some p => if p = "" then "unknown" else p
        | none => "unknown"))]

/-! ## Ingestion (`run_fetch_audience_task` in `cosmetics.py`)

The Apify call is external; its outcome enters the model as an
`Except`: `run_apify` catches any actor error internally and returns an
empty list, and unsupported platforms short-circuit to an empty list
before any call.  Records are stamped with provenance fields, given a
`unique_key` and inserted only when no stored record matches
`(client_id, platform, unique_key)`.  The per-record
`datetime.utcnow()` stamps are modelled by one timestamp string per
run. -/

/-- `run_apify`: unsupported platforms return `[]` without calling the
actor; an actor error is caught and logged, also returning `[]`. -/
def runApify (platform : String) (actorResult : Except String (List Val)) : List Val :=
  if platform = "facebook" || platform = "instagram" || platform = "linkedin" then
    match actorResult with
    | .ok items => items
    | .error _ => []
  else []

/-- The stable part of the `unique_key` priority chain:
`r.get("profileUrl") or r.get("publicIdentifier") or r.get("unique_key")`. -/
def stableKeyOf (r : Val) : Val :=
  pyOr (r.getT "profileUrl") (pyOr (r.getT "publicIdentifier") (r.getT "unique_key"))

/-- The `find_one({"client_id": ..., "platform": ..., "unique_key": ...})`
filter on one stored record. -/
def recMatches (cid pf : String) (key : Val) (s : Val) : Bool :=
  decide (s.getT "client_id" = .vstr cid) && decide (s.getT "platform" = .vstr pf) &&
    decide (s.getT "unique_key" = key)

/-- The provenance stamping `r["client_id"] = ...; r["platform"] = ...;
r["fetched_at"] = ...` (the per-record `utcnow` is modelled by one
timestamp string per run). -/
def stampFields (fs : List (String × Val)) (cid pf ts : String) : List (String × Val) :=
  setField (setField (setField fs "client_id" (.vstr cid)) "platform" (.vstr pf))
    "fetched_at" (.vstr ts)

/-- The `unique_key` priority chain computed from the stamped record:
`profileUrl or publicIdentifier or unique_key or f"{platform}_{i}_{ts}"`. -/
def recordKey (fs1 : List (String × Val)) (pf : String) (i : Nat) (ts : String) : Val :=
  pyOr (dGet fs1 "profileUrl") (pyOr (dGet fs1 "publicIdentifier")
    (pyOr (dGet fs1 "unique_key") (.vstr (pf ++ "_" ++ toString i ++ "_" ++ ts))))

/-- The record as inserted: stamped, with its `unique_key` field set. -/
def stampedRecord (cid pf ts : String) (i : Nat) (fs : List (String × Val)) : Val :=
  Val.vdict (setField (stampFields fs cid pf ts) "unique_key"
    (recordKey (stampFields fs cid pf ts) pf i ts))

/-- The ingestion loop over the enumerated fetched records.  Returns the
final store, the `stored_count`, and `some e` when an iteration raised
(the partially updated store is kept, as the exception aborts the task
but not the already performed inserts). -/
def ingestLoop (cid pf ts : String) : List (Nat × Val) → List Val → Nat → List Val × Nat × Option String
  | [], store, cnt => (store, cnt, none)
  | (i, r) :: rest, store, cnt =>
    if truthy r = false then ingestLoop cid pf ts rest store cnt
    else
      match r with
      | .vdict fs =>
        if store.any (recMatches cid pf (recordKey (stampFields fs cid pf ts) pf i ts)) then
          ingestLoop cid pf ts rest store cnt
        else
          ingestLoop cid pf ts rest (store ++ [stampedRecord cid pf ts i fs]) (cnt + 1)
      | _ => (store, cnt, some "TypeError: item assignment on a non-dict record")

/-- The observable outcome of one `run_fetch_audience_task` run: the
audience store, the client status and `last_fetch_count` written by the
completion update (status unchanged and no count on failure), and the
task status recorded in the registry before cleanup. -/
structure IngestOutcome where
  store : List Val
  clientStatus : String
  lastFetchCount : Option Nat
  taskStatus : String
deriving Repr, DecidableEq

/-- `run_fetch_audience_task` for an existing client: fetch through
`run_apify`, ingest with deduplication, then update the client status
(`"data_fetched"` when at least one new record was stored, else
`"data_fetch_attempted"`).  An exception inside the loop is caught by
the task wrapper: the task is marked failed and the client record is
left untouched. -/
def runFetchAudienceTask (cid pf ts origStatus : String)
    (actorResult : Except String (List Val)) (store : List Val) : IngestOutcome :=
  match ingestLoop cid pf ts (runApify pf actorResult).enum store 0 with
  | (store2, cnt, none) =>
    { store := store2
      clientStatus := if cnt = 0 then "data_fetch_attempted" else "data_fetched"
      lastFetchCount := some cnt
      taskStatus := "completed" }
  | (store2, _, some e) =>
    { store := store2
      clientStatus := origStatus
      lastFetchCount := none
      taskStatus := "failed: " ++ e }

/-! ## Task registry (`tasks` dict in `cosmetics.py`)

Entries are keyed by task id; for the claims here only the status
string matters. -/

/-- The in-memory task registry. -/
abbrev Registry := List (String × String)

/-- `tasks[tid] = {...}` / `tasks[tid]["status"] = s`. -/
def regSet (reg : Registry) (tid status : String) : Registry :=
  match reg with
  | [] => [(tid, status)]
  | (k, v) :: rest => if k = tid then (tid, status) :: rest else (k, v) :: regSet rest tid status

/-- `del tasks[tid]`. -/
def regDel (reg : Registry) (tid : String) : Registry :=
  reg.filter (fun kv => kv.1 ≠ tid)

/-- `tasks.get(tid)`. -/
def regGet (reg : Registry) (tid : String) : Option String :=
  match reg with
  | [] => none
  | (k, v) :: rest => if k = tid then some v else regGet rest tid

/-- The registry effect of `run_fetch_audience_task`: mark running, mark
the terminal status, then `finally: del tasks[task_id]` after the
two-second grace sleep. -/
def runFetchAudienceTaskRegistry (reg : Registry) (tid : String) (succ : Bool) (err : String) : Registry :=
  let reg1 := regSet reg tid "running"
  let reg2 := if succ then regSet reg1 tid "completed"
              else regSet reg1 tid ("failed: " ++ err)
  regDel reg2 tid

/-- The registry effect of `generate_message_task_async`: mark running,
mark the terminal status — there is no cleanup step. -/
def generateMessageTaskRegistry (reg : Registry) (tid : String) (succ : Bool) (err : String) : Registry :=
  let reg1 := regSet reg tid "running"
  if succ then regSet reg1 tid "completed"
  else regSet reg1 tid ("failed: " ++ err)

/-! ## Helper lemmas -/

theorem lookupField_setField_self (fs : List (String × Val)) (k : String) (v : Val) :
    lookupField (setField fs k v) k = some v := by
  induction fs with
  | nil => simp [setField, lookupField]
  | cons kv rest ih =>
    obtain ⟨k0, v0⟩ := kv
    by_cases h : k0 = k
    · simp [setField, h, lookupField]
    · simp [setField, h, lookupField, ih]

theorem dGet_setField_ne (fs : List (String × Val)) (k k' : String) (v : Val)
    (h : k' ≠ k) : dGet (setField fs k v) k' = dGet fs k' := by
  induction fs with
  | nil => simp [setField, dGet, lookupField, Ne.symm h]
  | cons kv rest ih =>
    obtain ⟨k0, v0⟩ := kv
    by_cases h0 : k0 = k
    · subst h0
      simp [setField, dGet, lookupField, Ne.symm h]
    · by_cases h1 : k0 = k'
      · simp [setField, dGet, lookupField, h0, h1, h]
      · simpa [setField, dGet, lookupField, h0, h1, h] using ih

theorem dGetD_setField_ne (fs : List (String × Val)) (k k' : String) (v d : Val)
    (h : k' ≠ k) : dGetD (setField fs k v) k' d = dGetD fs k' d := by
  induction fs with
  | nil => simp [setField, dGetD, lookupField, Ne.symm h]
  | cons kv rest ih =>
    obtain ⟨k0, v0⟩ := kv
    by_cases h0 : k0 = k
    · subst h0
      simp [setField, dGetD, lookupField, Ne.symm h]
    · by_cases h1 : k0 = k'
      · simp [setField, dGetD, lookupField, h0, h1, h]
      · simpa [setField, dGetD, lookupField, h0, h1, h] using ih

theorem getT_setField_self (fs : List (String × Val)) (k : String) (v : Val) :
    (Val.vdict (setField fs k v)).getT k = v := by
  simp [Val.getT, lookupField_setField_self]

/-! ## C5: source-failure semantics -/

/-- C5 counterexample: for a client whose stored status is
`"registered"`, a profile-source failure does NOT leave the status
unchanged — the run completes with the status set to
`"data_fetch_attempted"`.  This refutes the claim that the status is
left unchanged when the source call fails. -/
theorem source_failure_changes_status :
    (runFetchAudienceTask "c" "instagram" "t" "registered" (.error "boom") []).clientStatus ≠ "registered" := by
  decide

/-- C5 (amended): a profile-source error is caught inside `run_apify`
and yields an empty record list, so the ingestion run completes
normally: the store is untouched, the client status becomes
`"data_fetch_attempted"`, the fetch count is recorded as zero, and no
exception propagates (the task completes).  Processing of other clients
is unaffected because each client runs in its own task over its own
client record. -/
theorem source_failure_outcome (cid pf ts origStatus e : String) (store : List Val) :
    runFetchAudienceTask cid pf ts origStatus (.error e) store =
      { store := store, clientStatus := "data_fetch_attempted",
        lastFetchCount := some 0, taskStatus := "completed" } := by
  have h : runApify pf (.error e) = [] := by
    unfold runApify; split <;> rfl
  unfold runFetchAudienceTask
  rw [h]
  rfl

/-! ## C7: status update on fetch success -/

/-- C7 counterexample: the profile-source call succeeds (it returns one
record), but the record is already stored, so zero new records are
stored and the status is set to `"data_fetch_attempted"` — not the
`"data_fetched"` state the claim requires even for zero new records. -/
theorem fetch_success_zero_not_data_fetched :
    (runFetchAudienceTask "c" "linkedin" "t2" "data_fetched" (.ok [.vdict [("profileUrl", .vstr "http://x")]])
      (runFetchAudienceTask "c" "linkedin" "t1" "registered" (.ok [.vdict [("profileUrl", .vstr "http://x")]]) []).store).clientStatus ≠ "data_fetched" := by
  decide

/-- C7 (amended): when the fetch attempt succeeds and ingestion
completes, the client status is always updated and the new-record count
is always recorded; the status is `"data_fetched"` exactly when at
least one new record was stored, and `"data_fetch_attempted"` when zero
new records were stored. -/
theorem fetch_success_status (cid pf ts origStatus : String) (items store store2 : List Val) (cnt : Nat)
    (hpf : pf = "facebook" ∨ pf = "instagram" ∨ pf = "linkedin")
    (hloop : ingestLoop cid pf ts items.enum store 0 = (store2, cnt, none)) :
    (runFetchAudienceTask cid pf ts origStatus (.ok items) store).clientStatus =
      (if cnt = 0 then "data_fetch_attempted" else "data_fetched") ∧
    (runFetchAudienceTask cid pf ts origStatus (.ok items) store).lastFetchCount = some cnt ∧
    (runFetchAudienceTask cid pf ts origStatus (.ok items) store).taskStatus = "completed" := by
  have hr : runApify pf (.ok items) = items := by
    rcases hpf with h | h | h <;> simp [runApify, h]
  unfold runFetchAudienceTask
  rw [hr, hloop]
  exact ⟨rfl, rfl, rfl⟩

/-- C7 witness: a fresh record is fetched and stored (count one), the
status becomes `"data_fetched"`. -/
theorem fetch_success_status_witness :
    (runFetchAudienceTask "c" "linkedin" "t" "registered" (.ok [.vdict [("profileUrl", .vstr "http://x")]]) []).clientStatus =
      (if (1 : Nat) = 0 then "data_fetch_attempted" else "data_fetched") ∧
    (runFetchAudienceTask "c" "linkedin" "t" "registered" (.ok [.vdict [("profileUrl", .vstr "http://x")]]) []).lastFetchCount = some 1 ∧
    (runFetchAudienceTask "c" "linkedin" "t" "registered" (.ok [.vdict [("profileUrl", .vstr "http://x")]]) []).taskStatus = "completed" :=
  fetch_success_status "c" "linkedin" "t" "registered" [.vdict [("profileUrl", .vstr "http://x")]] []
    (ingestLoop "c" "linkedin" "t" [Val.vdict [("profileUrl", .vstr "http://x")]].enum [] 0).1 1
    (Or.inr (Or.inr rfl)) (by decide)

/-! ## C9: task-registry lifetime -/

theorem regGet_regDel (reg : Registry) (tid : String) :
    regGet (regDel reg tid) tid = none := by
  induction reg with
  | nil => rfl
  | cons kv rest ih =>
    obtain ⟨k, v⟩ := kv
    by_cases h : k = tid
    · simpa [regDel, h] using ih
    · simpa [regDel, regGet, h] using ih

theorem regGet_regSet_self (reg : Registry) (tid s : String) :
    regGet (regSet reg tid s) tid = some s := by
  induction reg with
  | nil => simp [regSet, regGet]
  | cons kv rest ih =>
    obtain ⟨k, v⟩ := kv
    by_cases h : k = tid
    · simp [regSet, h, regGet]
    · simp [regSet, regGet, h, ih]

/-- C9 counterexample: a generation task that reaches the terminal
state `completed` is still present in the registry after its background
handler returns (the generation handler has no cleanup step), refuting
the claim for generation tasks. -/
theorem generation_task_not_removed :
    regGet (generateMessageTaskRegistry [("t1", "pending")] "t1" true "") "t1" ≠ none := by
  decide

/-- C9 (amended): ingestion tasks are removed from the registry by the
handler's cleanup step after the grace delay, so their identifier is
absent once the handler returns; generation task entries are never
removed — after the handler returns they remain in the registry with
their terminal status. -/
theorem task_registry_lifetime (reg : Registry) (tid err : String) (succ : Bool) :
    regGet (runFetchAudienceTaskRegistry reg tid succ err) tid = none ∧
    regGet (generateMessageTaskRegistry reg tid succ err) tid =
      some (if succ then "completed" else "failed: " ++ err) := by
  constructor
  · unfold runFetchAudienceTaskRegistry
    exact regGet_regDel _ tid
  · unfold generateMessageTaskRegistry
    cases succ <;> simp [regGet_regSet_self]

/-! ## C8: Instagram username fallback -/

/-- C8: the Instagram standardizer is documented (in the source comment
and in the specification) to fall back to `user_<ownerId>` when no
username can be extracted from the post url, but the fallback guard
compares against the sentinel `"instagram_user"`, a value
`_extract_username_from_url` never returns for an empty or unmatched
url — it returns `"unknown_user"` or `"social_user"`.  At the failing
input below (empty url, ownerId `"123"`) the code therefore produces
username `"unknown_user"` instead of `"user_123"`. -/
theorem instagram_username_fallback_dead :
    (standardizeInstagramProfile (.vdict [("url", .vstr ""), ("ownerId", .vstr "123"), ("caption", .vstr "hello")])).map
      (fun d => d.getT "username") = some (.vstr "unknown_user") ∧
    (standardizeInstagramProfile (.vdict [("url", .vstr "https://example.com/nothing"), ("ownerId", .vstr "123"), ("caption", .vstr "hello")])).map
      (fun d => d.getT "username") = some (.vstr "social_user") := by
  decide

/-! ## C10 and C4: totality and error shape of `_run` -/

theorem exbind_ok {α β : Type} (a : α) (f : α → Except String β) :
    (Except.ok a >>= f) = f a := rfl

theorem exbind_err {α β : Type} (e : String) (f : α → Except String β) :
    ((Except.error e : Except String α) >>= f) = Except.error e := rfl

theorem truthy_getT_isDict (v : Val) (k : String)
    (h : truthy (v.getT k) = true) : isDictVal v = true := by
  cases v <;> simp_all [Val.getT, truthy, isDictVal]

theorem expure {α : Type} (a : α) : (pure a : Except String α) = Except.ok a := rfl

theorem mem_processProfiles {q : Val} {tops : List Val} {pf : String}
    (h : q ∈ processProfiles tops pf) :
    truthy q = true ∧ truthy (q.getT "has_valid_content") = true := by
  unfold processProfiles at h
  rw [List.mem_filterMap] at h
  obtain ⟨a, _, ha⟩ := h
  cases hs : standardizeFor pf a with
  | none => rw [hs] at ha; simp at ha
  | some w =>
    rw [hs] at ha
    have ha2 : (if (truthy w && truthy (w.getT "has_valid_content")) = true
        then some w else none) = some q := ha
    by_cases hc : (truthy w && truthy (w.getT "has_valid_content")) = true
    · rw [if_pos hc] at ha2
      obtain rfl : w = q := by simpa using ha2
      simpa [Bool.and_eq_true] using hc
    · rw [if_neg hc] at ha2
      simp at ha2

theorem runCore_ok_shape (platform : Option String) (rs : List Val) (ts : List String)
    (lim : Nat) (v : Val) (h : runCore platform rs ts lim = .ok v) :
    isDictVal v = true ∧
      (truthy (v.getT "has_valid_content") = true ∨
        (isStrVal (v.getT "error") = true ∧ isStrVal (v.getT "platform") = true)) := by
  cases platform with
  | none => simp [runCore, exbind_err] at h
  | some pf =>
    rw [runCore] at h
    simp only [expure, exbind_ok] at h
    split at h
    · obtain rfl : _ = v := by simpa using h
      exact ⟨rfl, Or.inr ⟨by simp [Val.getT, lookupField, isStrVal],
        by simp [Val.getT, lookupField, isStrVal]⟩⟩
    · cases hv : validateProfiles rs pf with
      | error e => rw [hv] at h; simp [exbind_err] at h
      | ok vs =>
        rw [hv] at h
        simp only [expure, exbind_ok] at h
        split at h
        · obtain rfl : _ = v := by simpa using h
          exact ⟨rfl, Or.inr ⟨by simp [Val.getT, lookupField, isStrVal],
            by simp [Val.getT, lookupField, isStrVal]⟩⟩
        · cases hs : scoreStage vs ts pf with
          | error e => rw [hs] at h; simp [exbind_err] at h
          | ok sp =>
            rw [hs] at h
            simp only [expure, exbind_ok] at h
            cases hp : processProfiles (sp.take lim) pf with
            | nil =>
              rw [hp] at h
              obtain rfl : _ = v := by simpa using h
              exact ⟨rfl, Or.inr ⟨by simp [Val.getT, lookupField, isStrVal],
                by simp [Val.getT, lookupField, isStrVal]⟩⟩
            | cons q rest =>
              rw [hp] at h
              obtain rfl : q = v := by simpa using h
              have hq : q ∈ processProfiles (sp.take lim) pf := by
                rw [hp]; exact List.mem_cons_self _ _
              obtain ⟨htr, hvc⟩ := mem_processProfiles hq
              exact ⟨truthy_getT_isDict _ _ hvc, Or.inl hvc⟩

/-- C10: for every combination of arguments — a missing platform, any
record list (including malformed records, whose operations raise inside
the try block), any search-term list and any limit — `_run` returns a
dict: either a standardized profile whose `has_valid_content` flag is
truthy, or an error dict whose `"error"` and `"platform"` entries are
strings.  `runTool` is a total function: the top-level try/except turns
every internal exception into the error dict, so no exception reaches
the caller. -/
theorem run_returns_profile_or_error (platform : Option String) (rs : List Val)
    (ts : List String) (lim : Nat) :
    isDictVal (runTool platform rs ts lim) = true ∧
      (truthy ((runTool platform rs ts lim).getT "has_valid_content") = true ∨
        (isStrVal ((runTool platform rs ts lim).getT "error") = true ∧
         isStrVal ((runTool platform rs ts lim).getT "platform") = true)) := by
  unfold runTool
  cases h : runCore platform rs ts lim with
  | ok v => exact runCore_ok_shape platform rs ts lim v h
  | error e =>
    refine ⟨rfl, Or.inr ⟨?_, ?_⟩⟩ <;>
      simp [Val.getT, lookupField, isStrVal]

theorem runCore_no_candidate (pf : String) (rs : List Val) (ts : List String) (lim : Nat)
    (h : rs = [] ∨ validateProfiles rs pf = .ok [] ∨
      (∃ vs sp, validateProfiles rs pf = .ok vs ∧ scoreStage vs ts pf = .ok sp ∧
        processProfiles (sp.take lim) pf = [])) :
    ∃ msg rest, runCore (some pf) rs ts lim =
      .ok (.vdict (("error", .vstr msg) :: ("platform", .vstr pf) :: rest)) := by
  rw [runCore]
  simp only [expure, exbind_ok]
  by_cases he : rs.isEmpty
  · rw [if_pos he]
    exact ⟨_, _, rfl⟩
  · rw [if_neg he]
    rcases h with h1 | h2 | ⟨vs, sp, hv, hsc, hp⟩
    · exact absurd (by simp [h1]) he
    · rw [h2]
      simp only [expure, exbind_ok, List.isEmpty_nil, if_true]
      exact ⟨_, _, rfl⟩
    · rw [hv]
      simp only [expure, exbind_ok]
      by_cases hvs : vs.isEmpty
      · rw [if_pos hvs]
        exact ⟨_, _, rfl⟩
      · rw [if_neg hvs, hsc]
        simp only [expure, exbind_ok]
        rw [hp]
        exact ⟨_, _, rfl⟩

/-- C4: whenever no stored record exists for the query, or every stored
record is rejected by validation, or every scored record fails
standardization (or fails the `has_valid_content` check), `_run`
returns an explicit error dict whose `"error"` entry is a reason string
and whose `"platform"` entry is the platform tag — it does not return a
fabricated profile and, being a total function through the try/except
wrapper, does not propagate an exception. -/
theorem no_candidate_explicit_error (pf : String) (rs : List Val) (ts : List String) (lim : Nat)
    (h : rs = [] ∨ validateProfiles rs pf = .ok [] ∨
      (∃ vs sp, validateProfiles rs pf = .ok vs ∧ scoreStage vs ts pf = .ok sp ∧
        processProfiles (sp.take lim) pf = [])) :
    isStrVal ((runTool (some pf) rs ts lim).getT "error") = true ∧
    (runTool (some pf) rs ts lim).getT "platform" = .vstr pf := by
  obtain ⟨msg, rest, hc⟩ := runCore_no_candidate pf rs ts lim h
  unfold runTool
  rw [hc]
  constructor
  · simp [Val.getT, lookupField, isStrVal]
  · simp [Val.getT, lookupField]

/-- C4 witness: an empty store for the instagram query yields the
explicit error object. -/
theorem no_candidate_explicit_error_witness :
    isStrVal ((runTool (some "instagram") [] [] 1).getT "error") = true ∧
    (runTool (some "instagram") [] [] 1).getT "platform" = .vstr "instagram" :=
  no_candidate_explicit_error "instagram" [] [] 1 (Or.inl rfl)

/-! ## C3: LinkedIn scoring weights -/

theorem foldl_add_shift {α : Type} (g : α → Int) (f : Int → α → Int) (l : List α)
    (hf : ∀ a x, f a x = a + g x) : ∀ acc : Int, l.foldl f acc = acc + (l.map g).sum := by
  induction l with
  | nil => intro acc; simp
  | cons x xs ih =>
    intro acc
    simp only [List.foldl_cons, List.map_cons, List.sum_cons]
    rw [hf, ih, add_assoc]

theorem linkedin_term_foldl (tl : List String) (hls sms inds : String) :
    tl.foldl (fun acc t =>
      let acc := if strIn t hls then acc + 4 else acc
      let acc := if strIn t sms then acc + 3 else acc
      if strIn t inds then acc + 2 else acc) 0 =
    (tl.map (fun t => (if strIn t hls then (4:Int) else 0) +
      (if strIn t sms then 3 else 0) + (if strIn t inds then 2 else 0))).sum := by
  rw [foldl_add_shift (fun t => (if strIn t hls then (4:Int) else 0) +
      (if strIn t sms then 3 else 0) + (if strIn t inds then 2 else 0)) _ tl ?_ 0]
  · simp
  · intro a x
    by_cases h1 : strIn x hls <;> by_cases h2 : strIn x sms <;>
      by_cases h3 : strIn x inds <;> simp [h1, h2, h3] <;> ring

theorem linkedin_exp_inner_foldl (tl : List String) (expText : String) (acc : Int) :
    tl.foldl (fun a t => if strIn t expText then a + 2 else a) acc =
    acc + (tl.map (fun t => if strIn t expText then (2:Int) else 0)).sum := by
  rw [foldl_add_shift (fun t => if strIn t expText then (2:Int) else 0) _ tl ?_ acc]
  intro a x
  by_cases h : strIn x expText <;> simp [h]

theorem linkedin_exp_foldl (tl : List String) (exps3 : List Val) (s1 : Int) :
    exps3.foldl (fun acc e =>
      let expText := pyLower (pyStr e)
      tl.foldl (fun a t => if strIn t expText then a + 2 else a) acc) s1 =
    s1 + (exps3.map (fun e =>
      (tl.map (fun t => if strIn t (pyLower (pyStr e)) then (2:Int) else 0)).sum)).sum := by
  rw [foldl_add_shift (fun e =>
      (tl.map (fun t => if strIn t (pyLower (pyStr e)) then (2:Int) else 0)).sum) _ exps3 ?_ s1]
  intro a x
  exact linkedin_exp_inner_foldl tl (pyLower (pyStr x)) a

/-- The experience contribution as the claim states it, modelled from
the claim text: "+2 per term matching within any of the three most
recent experience entries (stringified)" — each term contributes +2
once when it matches at least one of the three most recent entries. -/
def linkedinExpSpecScore (exps : List Val) (termsLower : List String) : Int :=
  (termsLower.map (fun t =>
    if (exps.take 3).any (fun e => strIn t (pyLower (pyStr e))) then (2 : Int) else 0)).sum

/-- C3 counterexample: a candidate whose only matching signal is one
search term occurring in two of its three most recent experience
entries (headline, summary and industry empty or absent, connections
zero).  The claim's "+2 per term matching within any of the three
entries" yields 2 for this candidate, but the scorer accumulates +2
per (term, entry) pair and returns 4 — so the claim, as stated, is
false at this input. -/
theorem linkedin_exp_weight_per_pair :
    scoreLinkedIn (.vdict [("experience", .vlist [.vstr "beauty co", .vstr "beauty studio"])])
      (["beauty"].map pyLower) = .ok 4 ∧
    linkedinExpSpecScore [.vstr "beauty co", .vstr "beauty studio"]
      (["beauty"].map pyLower) = 2 ∧
    (4 : Int) ≠ 2 := by
  decide

/-- C3 (amended): for every LinkedIn candidate whose read fields have
the shapes the validity filter guarantees (string
headline/summary/industry or absent, a list of experience entries or
absent, an integer connection count or absent) and every non-empty
search-term list, the relevance score is exactly: per lowercased term,
+4 when the term occurs in the lowercased headline, +3 in the summary,
+2 in the industry field; +2 for EACH (term, entry) pair over the three
most recent experience entries where the term occurs in the lowercased
stringified entry (a term matching several entries scores +2 for each);
and a +1 bonus when the connection count exceeds 500. -/
theorem linkedin_scoring_weights (fs : List (String × Val)) (hls sms inds : String)
    (exps : List Val) (c : Int) (terms : List String)
    (hterms : terms ≠ [])
    (hh : dGetD fs "headline" (.vstr "") = .vstr hls)
    (hsm : dGetD fs "summary" (.vstr "") = .vstr sms)
    (hind : dGetD fs "industry" (.vstr "") = .vstr inds)
    (hexp : dGetD fs "experience" (.vlist []) = .vlist exps)
    (hconn : dGetD fs "connectionsCount" (.vint 0) = .vint c) :
    scoreLinkedIn (.vdict fs) (terms.map pyLower) = .ok
      (((terms.map pyLower).map (fun t =>
          (if strIn t (pyLower hls) then (4:Int) else 0) +
          (if strIn t (pyLower sms) then 3 else 0) +
          (if strIn t (pyLower inds) then 2 else 0))).sum +
        ((exps.take 3).map (fun e =>
          ((terms.map pyLower).map (fun t =>
            if strIn t (pyLower (pyStr e)) then (2:Int) else 0)).sum)).sum +
        (if 500 < c then 1 else 0)) := by
  unfold scoreLinkedIn
  rw [show asFields (.vdict fs) = .ok fs from rfl]
  simp only [expure, exbind_ok]
  rw [hh, hsm, hind, hexp, hconn]
  simp only [asStr, Except.map, asList, valGt, expure, exbind_ok]
  rw [linkedin_term_foldl, linkedin_exp_foldl]
  by_cases hb : (500 : Int) < c <;> simp [hb, add_assoc]

/-- C3 witness: headline, summary and industry each match the term, two
of the three most recent experience entries match it (contributing +2
each), and the connection count exceeds 500:
4 + 3 + 2 + 2 + 2 + 1 = 14. -/
theorem linkedin_scoring_weights_witness :
    scoreLinkedIn (.vdict [("headline", .vstr "Beauty Expert"), ("summary", .vstr "I love beauty"),
      ("industry", .vstr "Beauty"), ("experience", .vlist [.vstr "Beauty Co", .vstr "beauty studio"]),
      ("connectionsCount", .vint 501)]) (["Beauty"].map pyLower) = .ok 14 :=
  (linkedin_scoring_weights
    [("headline", .vstr "Beauty Expert"), ("summary", .vstr "I love beauty"),
      ("industry", .vstr "Beauty"), ("experience", .vlist [.vstr "Beauty Co", .vstr "beauty studio"]),
      ("connectionsCount", .vint 501)]
    "Beauty Expert" "I love beauty" "Beauty" [.vstr "Beauty Co", .vstr "beauty studio"] 501
    ["Beauty"] (by decide) rfl rfl rfl rfl rfl).trans (by decide)

/-! ## C6: scoring stability -/

theorem insDesc_perm (x : Val) (l : List Val) : (insDesc x l).Perm (x :: l) := by
  induction l with
  | nil => simp [insDesc]
  | cons y ys ih =>
    unfold insDesc
    by_cases h : scoreKey y ≤ scoreKey x
    · simp [h]
    · rw [if_neg h]
      exact (ih.cons y).trans (List.Perm.swap x y ys)

theorem sortScoreDesc_perm (l : List Val) : (sortScoreDesc l).Perm l := by
  induction l with
  | nil => simp [sortScoreDesc]
  | cons x xs ih =>
    unfold sortScoreDesc at *
    simpa using (insDesc_perm x (xs.foldr insDesc [])).trans (ih.cons x)

theorem mem_insDesc {z x : Val} {l : List Val} (h : z ∈ insDesc x l) :
    z = x ∨ z ∈ l := by
  have := (insDesc_perm x l).mem_iff.mp h
  simpa using this

theorem insDesc_pairwise {x : Val} {l : List Val}
    (h : l.Pairwise (fun a b => scoreKey b ≤ scoreKey a)) :
    (insDesc x l).Pairwise (fun a b => scoreKey b ≤ scoreKey a) := by
  induction l with
  | nil => simp [insDesc]
  | cons y ys ih =>
    rw [List.pairwise_cons] at h
    obtain ⟨hy, hys⟩ := h
    unfold insDesc
    by_cases hc : scoreKey y ≤ scoreKey x
    · rw [if_pos hc]
      refine List.Pairwise.cons ?_ (List.Pairwise.cons hy hys)
      intro z hz
      rcases List.mem_cons.mp hz with rfl | hz
      · exact hc
      · exact le_trans (hy z hz) hc
    · rw [if_neg hc]
      refine List.Pairwise.cons ?_ (ih hys)
      intro z hz
      rcases mem_insDesc hz with rfl | hz
      · exact le_of_lt (lt_of_not_le hc)
      · exact hy z hz

theorem sortScoreDesc_pairwise (l : List Val) :
    (sortScoreDesc l).Pairwise (fun a b => scoreKey b ≤ scoreKey a) := by
  induction l with
  | nil => simp [sortScoreDesc]
  | cons x xs ih => exact insDesc_pairwise ih

theorem filter_insDesc (x : Val) (l : List Val) (s : Int) :
    (insDesc x l).filter (fun v => decide (scoreKey v = s)) =
      if scoreKey x = s then x :: l.filter (fun v => decide (scoreKey v = s))
      else l.filter (fun v => decide (scoreKey v = s)) := by
  induction l with
  | nil =>
    by_cases h : scoreKey x = s <;> simp [insDesc, List.filter, h]
  | cons y ys ih =>
    unfold insDesc
    by_cases hc : scoreKey y ≤ scoreKey x
    · rw [if_pos hc]
      by_cases h : scoreKey x = s <;> simp [List.filter, h]
    · rw [if_neg hc]
      have hxlt : scoreKey x < scoreKey y := lt_of_not_le hc
      by_cases hys : scoreKey y = s
      · have hxs : scoreKey x ≠ s := by
          intro h
          rw [h, hys] at hxlt
          exact lt_irrefl s hxlt
        simp [List.filter_cons, hys, hxs, ih]
      · simp [List.filter_cons, hys, ih]

theorem filter_sortScoreDesc (l : List Val) (s : Int) :
    (sortScoreDesc l).filter (fun v => decide (scoreKey v = s)) =
      l.filter (fun v => decide (scoreKey v = s)) := by
  induction l with
  | nil => simp [sortScoreDesc]
  | cons x xs ih =>
    show (insDesc x (sortScoreDesc xs)).filter _ = _
    rw [filter_insDesc]
    by_cases h : scoreKey x = s <;> simp [List.filter, h, ih]

/-- C6 counterexample: with an empty search-term list the scorer
returns the candidate list unchanged — the candidates are not
(re-)annotated and, when they carry pre-existing relevance scores in
ascending order, the output is not sorted descending by score.  This
refutes the claim for the empty search-term list. -/
theorem scorer_empty_terms_unsorted :
    scoreProfilesByRelevance
      [.vdict [("relevance_score", .vint 1)], .vdict [("relevance_score", .vint 5)]] [] "linkedin" =
      .ok [.vdict [("relevance_score", .vint 1)], .vdict [("relevance_score", .vint 5)]] ∧
    ¬ ([Val.vdict [("relevance_score", .vint 1)], Val.vdict [("relevance_score", .vint 5)]].Pairwise
        (fun a b => scoreKey b ≤ scoreKey a)) := by
  constructor
  · decide
  · intro h
    rw [List.pairwise_cons] at h
    exact absurd (h.1 (Val.vdict [("relevance_score", .vint 5)]) (by simp)) (by decide)

/-- C6 (amended): for every platform, candidate list and NON-EMPTY
search-term list, the scorer returns exactly the input candidates
annotated with their integer relevance score (`ann` is the annotation
of the input, in input order), sorted descending by score; candidates
with equal score `s` appear in their original retrieval order (the
filter at any score value is preserved) — the sort is stable.  For an
empty search-term list the input is returned unchanged. -/
theorem scorer_stable_sort (platform : String) (profiles : List Val) (ts : List String)
    (out ann : List Val) (s : Int)
    (hts : ts ≠ [])
    (hann : annotateProfiles platform profiles (ts.map pyLower) = .ok ann)
    (hout : scoreProfilesByRelevance profiles ts platform = .ok out) :
    out.Perm ann ∧
    out.Pairwise (fun a b => scoreKey b ≤ scoreKey a) ∧
    out.filter (fun v => decide (scoreKey v = s)) =
      ann.filter (fun v => decide (scoreKey v = s)) := by
  unfold scoreProfilesByRelevance at hout
  rw [if_neg (by simpa using hts)] at hout
  rw [hann, exbind_ok] at hout
  obtain rfl : sortScoreDesc ann = out := by simpa [expure] using hout
  exact ⟨sortScoreDesc_perm ann, sortScoreDesc_pairwise ann, filter_sortScoreDesc ann s⟩

/-- C6 witness: two instagram candidates that tie at score 2 keep their
retrieval order after the sort, and the output is the annotation of the
input in input order. -/
theorem scorer_stable_sort_witness :
    ([Val.vdict [("caption", .vstr "x beauty x"), ("a", .vint 1), ("relevance_score", .vint 2)],
      Val.vdict [("caption", .vstr "y beauty y"), ("b", .vint 2), ("relevance_score", .vint 2)]]).Perm
      ([Val.vdict [("caption", .vstr "x beauty x"), ("a", .vint 1), ("relevance_score", .vint 2)],
      Val.vdict [("caption", .vstr "y beauty y"), ("b", .vint 2), ("relevance_score", .vint 2)]]) ∧
    ([Val.vdict [("caption", .vstr "x beauty x"), ("a", .vint 1), ("relevance_score", .vint 2)],
      Val.vdict [("caption", .vstr "y beauty y"), ("b", .vint 2), ("relevance_score", .vint 2)]]).Pairwise (fun a b => scoreKey b ≤ scoreKey a) ∧
    ([Val.vdict [("caption", .vstr "x beauty x"), ("a", .vint 1), ("relevance_score", .vint 2)],
      Val.vdict [("caption", .vstr "y beauty y"), ("b", .vint 2), ("relevance_score", .vint 2)]]).filter (fun v => decide (scoreKey v = 2)) =
      ([Val.vdict [("caption", .vstr "x beauty x"), ("a", .vint 1), ("relevance_score", .vint 2)],
      Val.vdict [("caption", .vstr "y beauty y"), ("b", .vint 2), ("relevance_score", .vint 2)]]).filter (fun v => decide (scoreKey v = 2)) :=
  scorer_stable_sort "instagram"
    [.vdict [("caption", .vstr "x beauty x"), ("a", .vint 1)],
     .vdict [("caption", .vstr "y beauty y"), ("b", .vint 2)]]
    ["beauty"]
    [Val.vdict [("caption", .vstr "x beauty x"), ("a", .vint 1), ("relevance_score", .vint 2)],
      Val.vdict [("caption", .vstr "y beauty y"), ("b", .vint 2), ("relevance_score", .vint 2)]]
    [Val.vdict [("caption", .vstr "x beauty x"), ("a", .vint 1), ("relevance_score", .vint 2)],
      Val.vdict [("caption", .vstr "y beauty y"), ("b", .vint 2), ("relevance_score", .vint 2)]]
    2 (by decide) (by decide) (by decide)

/-! ## C2: validity monotonicity -/

theorem dropWhile_head_false {α : Type} (p : α → Bool) (l : List α) (a : α) (t : List α)
    (h : l.dropWhile p = a :: t) : p a = false := by
  induction l with
  | nil => simp [List.dropWhile] at h
  | cons x xs ih =>
    rw [List.dropWhile_cons] at h
    by_cases hp : p x = true
    · rw [if_pos hp] at h; exact ih h
    · rw [if_neg hp] at h
      cases h
      simpa using hp

theorem dropWhile_of_head_false {α : Type} (p : α → Bool) (l : List α)
    (h : ∀ a t, l = a :: t → p a = false) : l.dropWhile p = l := by
  cases l with
  | nil => rfl
  | cons x xs =>
    rw [List.dropWhile_cons, if_neg]
    simp [h x xs rfl]

theorem dropWhile_idem {α : Type} (p : α → Bool) (l : List α) :
    (l.dropWhile p).dropWhile p = l.dropWhile p := by
  cases hd : l.dropWhile p with
  | nil => rfl
  | cons a t =>
    rw [List.dropWhile_cons, if_neg]
    simp [dropWhile_head_false p l a t hd]

theorem exists_dropWhile_append {α : Type} (p : α → Bool) (l : List α) :
    ∃ t0, l = t0 ++ l.dropWhile p := by
  induction l with
  | nil => exact ⟨[], rfl⟩
  | cons x xs ih =>
    by_cases hp : p x = true
    · obtain ⟨t0, ht⟩ := ih
      refine ⟨x :: t0, ?_⟩
      rw [List.dropWhile_cons, if_pos hp]
      simpa using ht
    · refine ⟨[], ?_⟩
      rw [List.dropWhile_cons, if_neg hp]
      rfl

theorem stripFix {α : Type} (p : α → Bool) (m : List α)
    (hhead : ∀ a t, m = a :: t → p a = false) :
    ((m.reverse.dropWhile p).reverse).dropWhile p = (m.reverse.dropWhile p).reverse := by
  apply dropWhile_of_head_false
  intro a t he
  obtain ⟨t1, ht1⟩ := exists_dropWhile_append p m.reverse
  have hm2 : m = (m.reverse.dropWhile p).reverse ++ t1.reverse := by
    have hrev := congrArg List.reverse ht1
    rw [List.reverse_reverse, List.reverse_append] at hrev
    exact hrev
  apply hhead a (t ++ t1.reverse)
  rw [hm2, he]
  rfl

theorem stripList_idem (l : List Char) : stripList (stripList l) = stripList l := by
  unfold stripList
  rw [stripFix Char.isWhitespace (l.dropWhile Char.isWhitespace)
      (fun a t he => dropWhile_head_false _ l a t he),
    List.reverse_reverse, dropWhile_idem]

theorem pyStrip_idem (s : String) : pyStrip (pyStrip s) = pyStrip s := by
  unfold pyStrip
  rw [show (String.mk (stripList s.toList)).toList = stripList s.toList from rfl, stripList_idem]

theorem pyOr_vstr_empty (x : String) : pyOr (.vstr x) (.vstr "") = .vstr x := by
  unfold pyOr
  by_cases h : x = ""
  · subst h; rfl
  · rw [if_pos]
    simpa [truthy] using h

theorem cleanStrField_ok {fs : List (String × Val)} {k s : String}
    (h : cleanStrField fs k = .ok s) : pyStrip s = s := by
  unfold cleanStrField at h
  cases ha : asStr (pyOr (dGet fs k) (.vstr "")) with
  | error e => rw [ha] at h; simp [exbind_err] at h
  | ok s0 =>
    rw [ha, exbind_ok] at h
    obtain rfl : pyStrip s0 = s := by simpa [expure] using h
    exact pyStrip_idem s0

/-- Re-cleaning a cleaned LinkedIn profile returns it unchanged
(cleaning is idempotent on its image). -/
theorem cleanLinkedIn_self (c : LinkedInClean)
    (h1 : pyStrip c.firstName = c.firstName)
    (h2 : pyStrip c.lastName = c.lastName)
    (h3 : pyStrip c.fullName = c.fullName)
    (h4 : pyStrip c.headline = c.headline)
    (h5 : pyStrip c.summary = c.summary)
    (h6 : pyStrip c.about = c.about)
    (h7 : pyOr c.experience (.vlist []) = c.experience)
    (h8 : pyOr c.location (.vdict []) = c.location) :
    cleanLinkedIn c.toDict = .ok c := by
  unfold cleanLinkedIn LinkedInClean.toDict cleanStrField
  simp [asFields, exbind_ok, expure, dGet, lookupField, pyOr_vstr_empty, asStr,
    h1, h2, h3, h4, h5, h6, h7, h8,
    show pyOr Val.vnull (.vstr "") = .vstr "" from rfl]

/-- The components of any successfully cleaned profile are fixed points
of the cleaning operations. -/
theorem cleanLinkedIn_components {p : Val} {c : LinkedInClean}
    (h : cleanLinkedIn p = .ok c) :
    pyStrip c.firstName = c.firstName ∧ pyStrip c.lastName = c.lastName ∧
    pyStrip c.fullName = c.fullName ∧ pyStrip c.headline = c.headline ∧
    pyStrip c.summary = c.summary ∧ pyStrip c.about = c.about ∧
    pyOr c.experience (.vlist []) = c.experience ∧
    pyOr c.location (.vdict []) = c.location := by
  unfold cleanLinkedIn at h
  cases hf : asFields p with
  | error e => rw [hf] at h; simp [exbind_err] at h
  | ok fs =>
    rw [hf] at h
    simp only [exbind_ok] at h
    cases hc1 : cleanStrField fs "firstName" with
    | error e => rw [hc1] at h; simp [exbind_err] at h
    | ok first =>
      rw [hc1, exbind_ok] at h
      cases hc2 : cleanStrField fs "lastName" with
      | error e => rw [hc2] at h; simp [exbind_err] at h
      | ok last =>
        rw [hc2, exbind_ok] at h
        cases hc3 : asStr (pyOr (dGet fs "fullName") (pyOr (dGet fs "name") (.vstr ""))) with
        | error e => rw [hc3] at h; simp [exbind_err] at h
        | ok full =>
          rw [hc3, exbind_ok] at h
          cases hc4 : cleanStrField fs "headline" with
          | error e => rw [hc4] at h; simp [exbind_err] at h
          | ok headline =>
            rw [hc4, exbind_ok] at h
            cases hc5 : cleanStrField fs "summary" with
            | error e => rw [hc5] at h; simp [exbind_err] at h
            | ok summary =>
              rw [hc5, exbind_ok] at h
              cases hc6 : cleanStrField fs "about" with
              | error e => rw [hc6] at h; simp [exbind_err] at h
              | ok about =>
                rw [hc6, exbind_ok] at h
                obtain rfl : _ = c := by simpa [expure] using h
                refine ⟨cleanStrField_ok hc1, cleanStrField_ok hc2, pyStrip_idem full,
                  cleanStrField_ok hc4, cleanStrField_ok hc5, cleanStrField_ok hc6,
                  pyOr_self_right _ _, pyOr_self_right _ _⟩

/-- A record kept by the validity filter passes the filter again: the
filter output consists of records the filter accepts. -/
theorem validateOne_passes_again {pf : String} {p q : Val}
    (h : validateOne pf p = .ok (some q)) :
    ∃ q2, validateOne pf q = .ok (some q2) := by
  unfold validateOne at h ⊢
  by_cases hf : pf = "facebook"
  · rw [if_pos hf] at h ⊢
    cases hb : validateFacebookP p with
    | error e => rw [hb] at h; simp [exbind_err] at h
    | ok b =>
      rw [hb, exbind_ok] at h
      cases b with
      | false => simp [expure] at h
      | true =>
        obtain rfl : p = q := by simpa [expure] using h
        exact ⟨p, by rw [hb, exbind_ok]; simp [expure]⟩
  · rw [if_neg hf] at h ⊢
    by_cases hi : pf = "instagram"
    · rw [if_pos hi] at h ⊢
      cases hb : validateInstagramP p with
      | error e => rw [hb] at h; simp [exbind_err] at h
      | ok b =>
        rw [hb, exbind_ok] at h
        cases b with
        | false => simp [expure] at h
        | true =>
          obtain rfl : p = q := by simpa [expure] using h
          exact ⟨p, by rw [hb, exbind_ok]; simp [expure]⟩
    · rw [if_neg hi] at h ⊢
      by_cases hl : pf = "linkedin"
      · rw [if_pos hl] at h ⊢
        cases hc : cleanLinkedIn p with
        | error e => rw [hc] at h; simp [exbind_err] at h
        | ok c =>
          rw [hc, exbind_ok] at h
          by_cases hck : linkedinCheck c = true
          · obtain rfl : c.toDict = q := by simpa [expure, hck] using h
            obtain ⟨k1, k2, k3, k4, k5, k6, k7, k8⟩ := cleanLinkedIn_components hc
            have h2 : cleanLinkedIn c.toDict = .ok c :=
              cleanLinkedIn_self c k1 k2 k3 k4 k5 k6 k7 k8
            exact ⟨c.toDict, by rw [h2, exbind_ok]; simp [expure, hck]⟩
          · simp [expure, hck] at h
      · rw [if_neg hl] at h ⊢
        cases hb : validateGenericP p with
        | error e => rw [hb] at h; simp [exbind_err] at h
        | ok b =>
          rw [hb, exbind_ok] at h
          cases b with
          | false => simp [expure] at h
          | true =>
            obtain rfl : p = q := by simpa [expure] using h
            exact ⟨p, by rw [hb, exbind_ok]; simp [expure]⟩

/-- Every member of the filter output was accepted by `validateOne` for
some input record. -/
theorem mem_validateProfiles {rs vs : List Val} {pf : String} {q : Val}
    (hv : validateProfiles rs pf = .ok vs) (hq : q ∈ vs) :
    ∃ p, validateOne pf p = .ok (some q) := by
  induction rs generalizing vs with
  | nil =>
    unfold validateProfiles at hv
    obtain rfl : ([] : List Val) = vs := by simpa using hv
    simp at hq
  | cons p rest ih =>
    unfold validateProfiles at hv
    cases h1 : validateOne pf p with
    | error e => rw [h1] at hv; simp [exbind_err] at hv
    | ok o =>
      rw [h1, exbind_ok] at hv
      cases h2 : validateProfiles rest pf with
      | error e => rw [h2] at hv; simp [exbind_err] at hv
      | ok tail =>
        rw [h2, exbind_ok] at hv
        cases o with
        | some w =>
          obtain rfl : w :: tail = vs := by simpa [expure] using hv
          rcases List.mem_cons.mp hq with rfl | hq2
          · exact ⟨p, h1⟩
          · exact ih h2 hq2
        | none =>
          obtain rfl : tail = vs := by simpa [expure] using hv
          exact ih h2 hq

/-! Adding the `relevance_score` annotation touches no field any
validator reads, so it cannot change a record's validity. -/

theorem validateFacebookP_setScore (fs : List (String × Val)) (w : Val) :
    validateFacebookP (.vdict (setField fs "relevance_score" w)) =
      validateFacebookP (.vdict fs) := by
  unfold validateFacebookP
  rw [show asFields (.vdict (setField fs "relevance_score" w)) = .ok (setField fs "relevance_score" w) from rfl,
    show asFields (.vdict fs) = .ok fs from rfl]
  simp only [exbind_ok]
  rw [dGetD_setField_ne fs "relevance_score" "categories" w (.vlist []) (by decide),
    dGetD_setField_ne fs "relevance_score" "info" w (.vlist []) (by decide),
    dGet_setField_ne fs "relevance_score" "likes" w (by decide),
    dGet_setField_ne fs "relevance_score" "followers" w (by decide),
    dGet_setField_ne fs "relevance_score" "about_me" w (by decide)]

theorem validateInstagramP_setScore (fs : List (String × Val)) (w : Val) :
    validateInstagramP (.vdict (setField fs "relevance_score" w)) =
      validateInstagramP (.vdict fs) := by
  unfold validateInstagramP
  rw [show asFields (.vdict (setField fs "relevance_score" w)) = .ok (setField fs "relevance_score" w) from rfl,
    show asFields (.vdict fs) = .ok fs from rfl]
  simp only [exbind_ok]
  rw [dGet_setField_ne fs "relevance_score" "caption" w (by decide),
    dGetD_setField_ne fs "relevance_score" "hashtags" w (.vlist []) (by decide),
    dGet_setField_ne fs "relevance_score" "ownerId" w (by decide)]

theorem validateGenericP_setScore (fs : List (String × Val)) (w : Val) :
    validateGenericP (.vdict (setField fs "relevance_score" w)) =
      validateGenericP (.vdict fs) := by
  unfold validateGenericP
  rw [show asFields (.vdict (setField fs "relevance_score" w)) = .ok (setField fs "relevance_score" w) from rfl,
    show asFields (.vdict fs) = .ok fs from rfl]
  simp only [exbind_ok]
  rw [dGet_setField_ne fs "relevance_score" "username" w (by decide),
    dGet_setField_ne fs "relevance_score" "bio" w (by decide),
    dGet_setField_ne fs "relevance_score" "caption" w (by decide)]

theorem cleanStrField_setScore (fs : List (String × Val)) (w : Val) (k : String)
    (h : k ≠ "relevance_score") :
    cleanStrField (setField fs "relevance_score" w) k = cleanStrField fs k := by
  unfold cleanStrField
  rw [dGet_setField_ne fs "relevance_score" k w h]

theorem cleanLinkedIn_setScore (fs : List (String × Val)) (w : Val) :
    cleanLinkedIn (.vdict (setField fs "relevance_score" w)) =
      cleanLinkedIn (.vdict fs) := by
  unfold cleanLinkedIn
  rw [show asFields (.vdict (setField fs "relevance_score" w)) = .ok (setField fs "relevance_score" w) from rfl,
    show asFields (.vdict fs) = .ok fs from rfl]
  simp only [exbind_ok]
  rw [cleanStrField_setScore fs w "firstName" (by decide),
    cleanStrField_setScore fs w "lastName" (by decide),
    cleanStrField_setScore fs w "headline" (by decide),
    cleanStrField_setScore fs w "summary" (by decide),
    cleanStrField_setScore fs w "about" (by decide),
    dGet_setField_ne fs "relevance_score" "fullName" w (by decide),
    dGet_setField_ne fs "relevance_score" "name" w (by decide),
    dGet_setField_ne fs "relevance_score" "experience" w (by decide),
    dGet_setField_ne fs "relevance_score" "publicIdentifier" w (by decide),
    dGet_setField_ne fs "relevance_score" "linkedinUrl" w (by decide),
    dGet_setField_ne fs "relevance_score" "photo" w (by decide),
    dGet_setField_ne fs "relevance_score" "location" w (by decide)]

theorem validateOne_setScore (pf : String) (fs : List (String × Val)) (w : Val) {q : Val}
    (h : validateOne pf (.vdict fs) = .ok (some q)) :
    ∃ q2, validateOne pf (.vdict (setField fs "relevance_score" w)) = .ok (some q2) := by
  unfold validateOne at h ⊢
  by_cases hf : pf = "facebook"
  · rw [if_pos hf] at h ⊢
    rw [validateFacebookP_setScore]
    cases hb : validateFacebookP (.vdict fs) with
    | error e => rw [hb] at h; simp [exbind_err] at h
    | ok b =>
      rw [hb] at h
      cases b with
      | false => simp [exbind_ok, expure] at h
      | true => exact ⟨_, rfl⟩
  · rw [if_neg hf] at h ⊢
    by_cases hi : pf = "instagram"
    · rw [if_pos hi] at h ⊢
      rw [validateInstagramP_setScore]
      cases hb : validateInstagramP (.vdict fs) with
      | error e => rw [hb] at h; simp [exbind_err] at h
      | ok b =>
        rw [hb] at h
        cases b with
        | false => simp [exbind_ok, expure] at h
        | true => exact ⟨_, rfl⟩
    · rw [if_neg hi] at h ⊢
      by_cases hl : pf = "linkedin"
      · rw [if_pos hl] at h ⊢
        rw [cleanLinkedIn_setScore]
        cases hc : cleanLinkedIn (.vdict fs) with
        | error e => rw [hc] at h; simp [exbind_err] at h
        | ok c =>
          rw [hc] at h
          by_cases hck : linkedinCheck c = true
          · exact ⟨c.toDict, by simp [exbind_ok, expure, hck]⟩
          · simp [exbind_ok, expure, hck] at h
      · rw [if_neg hl] at h ⊢
        rw [validateGenericP_setScore]
        cases hb : validateGenericP (.vdict fs) with
        | error e => rw [hb] at h; simp [exbind_err] at h
        | ok b =>
          rw [hb] at h
          cases b with
          | false => simp [exbind_ok, expure] at h
          | true => exact ⟨_, rfl⟩

/-- Every member of the annotated list is some input record (a dict)
with its `relevance_score` field set. -/
theorem mem_annotateProfiles {pf : String} {tl : List String}
    {profiles ann : List Val} {a : Val}
    (h : annotateProfiles pf profiles tl = .ok ann) (ha : a ∈ ann) :
    ∃ fsq sc, Val.vdict fsq ∈ profiles ∧
      a = .vdict (setField fsq "relevance_score" (.vint sc)) := by
  induction profiles generalizing ann with
  | nil =>
    unfold annotateProfiles at h
    obtain rfl : ([] : List Val) = ann := by simpa using h
    simp at ha
  | cons p rest ih =>
    unfold annotateProfiles at h
    cases h1 : scoreProfile pf p tl with
    | error e => rw [h1] at h; simp [exbind_err] at h
    | ok sc =>
      rw [h1, exbind_ok] at h
      cases h2 : annotate p sc with
      | error e => rw [h2] at h; simp [exbind_err] at h
      | ok ap =>
        rw [h2, exbind_ok] at h
        cases h3 : annotateProfiles pf rest tl with
        | error e => rw [h3] at h; simp [exbind_err] at h
        | ok tail =>
          rw [h3, exbind_ok] at h
          obtain rfl : ap :: tail = ann := by simpa [expure] using h
          rcases List.mem_cons.mp ha with rfl | ha2
          · unfold annotate at h2
            cases p with
            | vdict fsp =>
              refine ⟨fsp, sc, List.mem_cons_self _ _, ?_⟩
              simpa using h2.symm
            | vnull => simp at h2
            | vbool b => simp at h2
            | vint n => simp at h2
            | vstr s => simp at h2
            | vlist xs => simp at h2
          · obtain ⟨fsq, sc2, hmem, he⟩ := ih h3 ha2
            exact ⟨fsq, sc2, List.mem_cons_of_mem _ hmem, he⟩

/-- C2: a record that fails the platform validity filter is never in
the scorer input (the filter output), never in the scorer output, and
never among the top profiles handed to the standardizers — hence it can
never be standardized nor returned as the top candidate. -/
theorem invalid_never_ranked (pf : String) (p : Val) (rs vs sp : List Val)
    (ts : List String) (lim : Nat)
    (hfail : validateOne pf p = .ok none)
    (hval : validateProfiles rs pf = .ok vs)
    (hsc : scoreStage vs ts pf = .ok sp) :
    p ∉ vs ∧ p ∉ sp ∧ p ∉ sp.take lim := by
  have hnv : p ∉ vs := by
    intro hmem
    obtain ⟨p0, h0⟩ := mem_validateProfiles hval hmem
    obtain ⟨q2, h2⟩ := validateOne_passes_again h0
    rw [hfail] at h2
    simp at h2
  have hns : p ∉ sp := by
    unfold scoreStage at hsc
    by_cases hts : ts.isEmpty
    · rw [if_pos hts] at hsc
      obtain rfl : vs = sp := by simpa using hsc
      exact hnv
    · rw [if_neg hts] at hsc
      unfold scoreProfilesByRelevance at hsc
      rw [if_neg hts] at hsc
      cases hann : annotateProfiles pf vs (ts.map pyLower) with
      | error e => rw [hann] at hsc; simp [exbind_err] at hsc
      | ok ann =>
        rw [hann, exbind_ok] at hsc
        obtain rfl : sortScoreDesc ann = sp := by simpa [expure] using hsc
        intro hmem
        have hmem2 : p ∈ ann := (sortScoreDesc_perm ann).mem_iff.mp hmem
        obtain ⟨fsq, sc, hq, rfl⟩ := mem_annotateProfiles hann hmem2
        obtain ⟨p0, h0⟩ := mem_validateProfiles hval hq
        obtain ⟨q2, h2⟩ := validateOne_passes_again h0
        obtain ⟨q3, h3⟩ := validateOne_setScore pf fsq (.vint sc) h2
        rw [hfail] at h3
        simp at h3
  exact ⟨hnv, hns, fun hmem => hns (List.mem_of_mem_take hmem)⟩

/-- C2 witness: the record with no caption, hashtags or owner id fails
the instagram filter and appears in neither the filter output, nor the
scorer output, nor the top-candidate list. -/
theorem invalid_never_ranked_witness :
    (Val.vdict [("foo", .vstr "x")]) ∉ [Val.vdict [("caption", .vstr "hello world")]] ∧
    (Val.vdict [("foo", .vstr "x")]) ∉
      [Val.vdict [("caption", .vstr "hello world"), ("relevance_score", .vint 2)]] ∧
    (Val.vdict [("foo", .vstr "x")]) ∉
      [Val.vdict [("caption", .vstr "hello world"), ("relevance_score", .vint 2)]].take 1 :=
  invalid_never_ranked "instagram" (.vdict [("foo", .vstr "x")])
    [.vdict [("foo", .vstr "x")], .vdict [("caption", .vstr "hello world")]]
    [.vdict [("caption", .vstr "hello world")]]
    [.vdict [("caption", .vstr "hello world"), ("relevance_score", .vint 2)]]
    ["hello"] 1 (by decide) (by decide) (by decide)

/-! ## C1: dedup idempotence -/

theorem mem_of_mem_enumFrom {α : Type} :
    ∀ (l : List α) (n : Nat) (p : Nat × α), p ∈ l.enumFrom n → p.2 ∈ l := by
  intro l
  induction l with
  | nil => intro n p h; simp [List.enumFrom] at h
  | cons x xs ih =>
    intro n p h
    rw [List.enumFrom] at h
    rcases List.mem_cons.mp h with rfl | h2
    · simp
    · exact List.mem_cons_of_mem _ (ih (n + 1) p h2)

theorem pyOr_nest (a b c d : Val) (h : truthy (pyOr a (pyOr b c)) = true) :
    pyOr a (pyOr b (pyOr c d)) = pyOr a (pyOr b c) := by
  unfold pyOr at *
  by_cases ha : truthy a = true
  · simp [ha]
  · simp only [ha, if_false, Bool.false_eq_true] at h ⊢
    by_cases hb : truthy b = true
    · simp [hb]
    · simp only [hb, if_false, Bool.false_eq_true] at h ⊢
      simp [h]

theorem dGet_setField_self (fs : List (String × Val)) (k : String) (v : Val) :
    dGet (setField fs k v) k = v := by
  simp [dGet, lookupField_setField_self]

theorem getT_vdict (l : List (String × Val)) (k : String) :
    (Val.vdict l).getT k = dGet l k := rfl

/-- The `unique_key` computed for a stamped record with a truthy stable
key equals the stable key (the synthetic timestamp fallback is not
used). -/
theorem key_of_stamped (fs : List (String × Val)) (cid pf ts : String) (i : Nat)
    (hst : truthy (stableKeyOf (.vdict fs)) = true) :
    recordKey (stampFields fs cid pf ts) pf i ts = stableKeyOf (.vdict fs) := by
  unfold recordKey stampFields
  rw [dGet_setField_ne _ "fetched_at" "profileUrl" _ (by decide),
    dGet_setField_ne _ "platform" "profileUrl" _ (by decide),
    dGet_setField_ne _ "client_id" "profileUrl" _ (by decide),
    dGet_setField_ne _ "fetched_at" "publicIdentifier" _ (by decide),
    dGet_setField_ne _ "platform" "publicIdentifier" _ (by decide),
    dGet_setField_ne _ "client_id" "publicIdentifier" _ (by decide),
    dGet_setField_ne _ "fetched_at" "unique_key" _ (by decide),
    dGet_setField_ne _ "platform" "unique_key" _ (by decide),
    dGet_setField_ne _ "client_id" "unique_key" _ (by decide)]
  exact pyOr_nest _ _ _ _ hst

theorem any_mono {p : Val → Bool} {s1 s2 : List Val} (hsub : ∀ x ∈ s1, x ∈ s2)
    (h : s1.any p = true) : s2.any p = true := by
  rw [List.any_eq_true] at h ⊢
  obtain ⟨x, hx, hp⟩ := h
  exact ⟨x, hsub x hx, hp⟩

/-- The freshly inserted stamped record matches the dedup filter for its
own key. -/
theorem recMatches_stamped (fs : List (String × Val)) (cid pf ts : String) (key : Val) :
    recMatches cid pf key
      (.vdict (setField (stampFields fs cid pf ts) "unique_key" key)) = true := by
  unfold recMatches stampFields
  rw [getT_vdict, getT_vdict, getT_vdict]
  rw [dGet_setField_self]
  rw [dGet_setField_ne _ "unique_key" "client_id" _ (by decide),
    dGet_setField_ne _ "fetched_at" "client_id" _ (by decide),
    dGet_setField_ne _ "platform" "client_id" _ (by decide),
    dGet_setField_self,
    dGet_setField_ne _ "unique_key" "platform" _ (by decide),
    dGet_setField_ne _ "fetched_at" "platform" _ (by decide),
    dGet_setField_self]
  simp

/-- First run: the loop completes without an exception, only grows the
store, and afterwards every truthy record with a stable key is covered
by a stored record with its `(client_id, platform, unique_key)`. -/
theorem ingest_covers (cid pf ts : String) :
    ∀ (irs : List (Nat × Val)) (store : List Val) (cnt : Nat),
    (∀ ir ∈ irs, truthy ir.2 = true → isDictVal ir.2 = true ∧ truthy (stableKeyOf ir.2) = true) →
    ∃ store2 cnt2, ingestLoop cid pf ts irs store cnt = (store2, cnt2, none) ∧
      (∀ x ∈ store, x ∈ store2) ∧
      (∀ ir ∈ irs, truthy ir.2 = true →
        store2.any (recMatches cid pf (stableKeyOf ir.2)) = true) := by
  intro irs
  induction irs with
  | nil =>
    intro store cnt _
    exact ⟨store, cnt, rfl, fun x hx => hx, by simp⟩
  | cons hd tl ih =>
    intro store cnt h
    obtain ⟨i, r⟩ := hd
    by_cases htr : truthy r = true
    · obtain ⟨hdict, hstable⟩ := h (i, r) (List.mem_cons_self _ _) htr
      cases r with
      | vdict fs =>
        rw [ingestLoop]
        rw [if_neg (by simp [htr])]
        rw [key_of_stamped fs cid pf ts i hstable]
        by_cases hfound : store.any (recMatches cid pf (stableKeyOf (.vdict fs))) = true
        · rw [if_pos hfound]
          obtain ⟨store2, cnt2, heq, hsub, hcov⟩ :=
            ih store cnt (fun ir hir => h ir (List.mem_cons_of_mem _ hir))
          refine ⟨store2, cnt2, heq, hsub, ?_⟩
          intro ir hir htr2
          rcases List.mem_cons.mp hir with rfl | hir2
          · exact any_mono hsub hfound
          · exact hcov ir hir2 htr2
        · rw [if_neg hfound]
          obtain ⟨store2, cnt2, heq, hsub, hcov⟩ :=
            ih (store ++ [stampedRecord cid pf ts i fs]) (cnt + 1)
              (fun ir hir => h ir (List.mem_cons_of_mem _ hir))
          refine ⟨store2, cnt2, heq, fun x hx => hsub x (List.mem_append_left _ hx), ?_⟩
          intro ir hir htr2
          rcases List.mem_cons.mp hir with rfl | hir2
          · apply any_mono hsub
            rw [List.any_eq_true]
            refine ⟨stampedRecord cid pf ts i fs,
              List.mem_append_right _ (List.mem_singleton.mpr rfl), ?_⟩
            unfold stampedRecord
            rw [key_of_stamped fs cid pf ts i hstable]
            exact recMatches_stamped fs cid pf ts _
          · exact hcov ir hir2 htr2
      | vnull => simp [isDictVal] at hdict
      | vbool b => simp [isDictVal] at hdict
      | vint n => simp [isDictVal] at hdict
      | vstr s => simp [isDictVal] at hdict
      | vlist xs => simp [isDictVal] at hdict
    · obtain ⟨store2, cnt2, heq, hsub, hcov⟩ :=
        ih store cnt (fun ir hir => h ir (List.mem_cons_of_mem _ hir))
      have htr2 : truthy r = false := by simpa using htr
      have hstep : ingestLoop cid pf ts ((i, r) :: tl) store cnt =
          ingestLoop cid pf ts tl store cnt := by
        cases r with
        | vdict fs => rw [ingestLoop, if_pos htr2]
        | vnull => rw [ingestLoop, if_pos htr2]; intro fs hfs; cases hfs
        | vbool b => rw [ingestLoop, if_pos htr2]; intro fs hfs; cases hfs
        | vint n => rw [ingestLoop, if_pos htr2]; intro fs hfs; cases hfs
        | vstr s => rw [ingestLoop, if_pos htr2]; intro fs hfs; cases hfs
        | vlist xs => rw [ingestLoop, if_pos htr2]; intro fs hfs; cases hfs
      refine ⟨store2, cnt2, hstep.trans heq, hsub, ?_⟩
      intro ir hir htr2
      rcases List.mem_cons.mp hir with rfl | hir2
      · exact absurd htr2 htr
      · exact hcov ir hir2 htr2

/-- Second run: when every truthy record is a dict with a stable key
already covered by the store, the loop stores nothing and leaves the
store unchanged. -/
theorem ingest_skip_all (cid pf ts : String) :
    ∀ (irs : List (Nat × Val)) (store : List Val) (cnt : Nat),
    (∀ ir ∈ irs, truthy ir.2 = true → isDictVal ir.2 = true ∧ truthy (stableKeyOf ir.2) = true ∧
      store.any (recMatches cid pf (stableKeyOf ir.2)) = true) →
    ingestLoop cid pf ts irs store cnt = (store, cnt, none) := by
  intro irs
  induction irs with
  | nil => intro store cnt _; rfl
  | cons hd tl ih =>
    intro store cnt h
    obtain ⟨i, r⟩ := hd
    by_cases htr : truthy r = true
    · obtain ⟨hdict, hstable, hfound⟩ := h (i, r) (List.mem_cons_self _ _) htr
      cases r with
      | vdict fs =>
        rw [ingestLoop, if_neg (by simp [htr]),
          key_of_stamped fs cid pf ts i hstable, if_pos hfound]
        exact ih store cnt (fun ir hir => h ir (List.mem_cons_of_mem _ hir))
      | vnull => simp [isDictVal] at hdict
      | vbool b => simp [isDictVal] at hdict
      | vint n => simp [isDictVal] at hdict
      | vstr s => simp [isDictVal] at hdict
      | vlist xs => simp [isDictVal] at hdict
    · have htr2 : truthy r = false := by simpa using htr
      have hstep : ingestLoop cid pf ts ((i, r) :: tl) store cnt =
          ingestLoop cid pf ts tl store cnt := by
        cases r with
        | vdict fs => rw [ingestLoop, if_pos htr2]
        | vnull => rw [ingestLoop, if_pos htr2]; intro fs hfs; cases hfs
        | vbool b => rw [ingestLoop, if_pos htr2]; intro fs hfs; cases hfs
        | vint n => rw [ingestLoop, if_pos htr2]; intro fs hfs; cases hfs
        | vstr s => rw [ingestLoop, if_pos htr2]; intro fs hfs; cases hfs
        | vlist xs => rw [ingestLoop, if_pos htr2]; intro fs hfs; cases hfs
      rw [hstep]
      exact ih store cnt (fun ir hir => h ir (List.mem_cons_of_mem _ hir))

/-- C1 counterexample: a record with no stable identity field
(`profileUrl`, `publicIdentifier` or `unique_key`) receives the
synthetic key `instagram_0_<timestamp>`; re-running ingestion with the
identical upstream record at a later timestamp computes a different
synthetic key, finds no match and stores the record again — the second
run stores one new record, not zero. -/
theorem dedup_second_run_stores_again :
    (runFetchAudienceTask "c" "instagram" "1694000500.0" "data_fetched"
        (.ok [.vdict [("caption", .vstr "hi")]])
        (runFetchAudienceTask "c" "instagram" "1694000000.0" "registered"
          (.ok [.vdict [("caption", .vstr "hi")]]) []).store).lastFetchCount ≠ some 0 := by
  decide

/-- C1 (amended): for every client and platform, re-running ingestion
with an identical upstream record set stores zero new records on the
second run, PROVIDED every truthy fetched record is a dict carrying a
truthy stable identity field (`profileUrl`, `publicIdentifier` or
`unique_key`); each record's key is looked up under
`(client_id, platform, unique_key)` and the record is inserted only if
absent, so the second run also leaves the store unchanged.  (Records
that fall back to the synthetic `platform_index_timestamp` key are
re-stored when re-fetched at a different timestamp.) -/
theorem dedup_idempotent_stable (cid pf ts1 ts2 st1 st2 : String) (items store : List Val)
    (hpf : pf = "facebook" ∨ pf = "instagram" ∨ pf = "linkedin")
    (hwf : ∀ r ∈ items, truthy r = true → isDictVal r = true ∧ truthy (stableKeyOf r) = true) :
    (runFetchAudienceTask cid pf ts2 st2 (.ok items)
        (runFetchAudienceTask cid pf ts1 st1 (.ok items) store).store).lastFetchCount = some 0 ∧
    (runFetchAudienceTask cid pf ts2 st2 (.ok items)
        (runFetchAudienceTask cid pf ts1 st1 (.ok items) store).store).store =
      (runFetchAudienceTask cid pf ts1 st1 (.ok items) store).store := by
  have hr : runApify pf (.ok items) = items := by
    rcases hpf with h | h | h <;> simp [runApify, h]
  have hwf2 : ∀ ir ∈ items.enum, truthy ir.2 = true →
      isDictVal ir.2 = true ∧ truthy (stableKeyOf ir.2) = true :=
    fun ir hir => hwf ir.2 (mem_of_mem_enumFrom items 0 ir hir)
  obtain ⟨store1, cnt1, heq1, hsub1, hcov1⟩ := ingest_covers cid pf ts1 items.enum store 0 hwf2
  have hrun1 : (runFetchAudienceTask cid pf ts1 st1 (.ok items) store).store = store1 := by
    unfold runFetchAudienceTask
    rw [hr, heq1]
  have heq2 : ingestLoop cid pf ts2 items.enum store1 0 = (store1, 0, none) :=
    ingest_skip_all cid pf ts2 items.enum store1 0
      (fun ir hir htr => ⟨(hwf2 ir hir htr).1, (hwf2 ir hir htr).2, hcov1 ir hir htr⟩)
  refine ⟨?_, ?_⟩ <;> rw [hrun1] <;> unfold runFetchAudienceTask <;> rw [hr, heq2]

/-- C1 witness: a record with a stable `profileUrl` is stored once by
the first run and not re-stored by the second. -/
theorem dedup_idempotent_stable_witness :
    (runFetchAudienceTask "c" "linkedin" "t2" "data_fetched"
        (.ok [.vdict [("profileUrl", .vstr "http://x")]])
        (runFetchAudienceTask "c" "linkedin" "t1" "registered"
          (.ok [.vdict [("profileUrl", .vstr "http://x")]]) []).store).lastFetchCount = some 0 ∧
    (runFetchAudienceTask "c" "linkedin" "t2" "data_fetched"
        (.ok [.vdict [("profileUrl", .vstr "http://x")]])
        (runFetchAudienceTask "c" "linkedin" "t1" "registered"
          (.ok [.vdict [("profileUrl", .vstr "http://x")]]) []).store).store =
      (runFetchAudienceTask "c" "linkedin" "t1" "registered"
        (.ok [.vdict [("profileUrl", .vstr "http://x")]]) []).store :=
  dedup_idempotent_stable "c" "linkedin" "t1" "t2" "registered" "data_fetched"
    [.vdict [("profileUrl", .vstr "http://x")]] []
    (Or.inr (Or.inr rfl)) (by decide)
